import Mathlib

/-!
Verification of the survey flow engine of `main.py` (Nasiya-savdo survey bot).

The development shallowly embeds the engine as pure Lean functions over an
explicit session-state record (`UserData`, mirroring the handler-visible part
of `ctx.user_data`).  Telegram transport, persistence collaborators
(PostgreSQL / CSV / Google Sheets), logging and the localized prompt texts are
presentation/IO concerns that the engine only emits into; they are abstracted
as an `Emit` output list.  Question prompt texts and hints (display-only) are
omitted from the `Question` record; every behaviour-relevant field (id, kind,
localized option lists, max_select, has_other, is_branch_question,
conditional_on, conditional_value_yes, numeric bounds) is kept verbatim.

Python-specific primitives (`str.strip`, `str.lower`, `str.isdigit`,
`str.split(sep, maxsplit)`, `int(...)`) are modelled by explicit `py*`
helpers; `str.lower` is modelled for the alphabets actually occurring in the
survey data (ASCII and Cyrillic).
-/

/-- The three interface languages of the bot (`lang:uz/ru/en`). -/
inductive Lang
  | uz
  | ru
  | en
deriving DecidableEq, Repr

/-- Question kinds occurring in `main.py` (`q["kind"]`); `sect` stands for the
source's `"section"` string. -/
inductive QKind
  | sect
  | region
  | choice
  | multi
  | text
  | number
  | percent
deriving DecidableEq, Repr

/-- A localized option table, i.e. the `{"uz": [...], "ru": [...], "en": [...]}`
dictionaries of `main.py`. -/
structure LocList where
  uz : List String := []
  ru : List String := []
  en : List String := []
deriving DecidableEq, Repr

/-- `options.get(lang, options.get("uz", []))` — all tables in the source carry
all three keys, so the lookup by the active language always succeeds. -/
def getOpts (o : LocList) (lang : Lang) : List String :=
  match lang with
  | Lang.uz => o.uz
  | Lang.ru => o.ru
  | Lang.en => o.en

/-- A question node of the graph.  Field names follow the dictionary keys of
`main.py`; prompt `text`/`hint` (display-only) are omitted, and the unused
`has_sub_if_yes` marker (never read by the code) is omitted as well. -/
structure Question where
  id : String
  kind : QKind
  options : LocList := {}
  max_select : Option Nat := none
  has_other : Bool := false
  is_branch_question : Bool := false
  conditional_on : Option String := none
  conditional_value_yes : Bool := false
  min : Option Int := none
  max : Option Int := none
deriving DecidableEq, Repr

/-- One entry of `UZB_REGIONS`. -/
structure Region where
  id : String
  uz : String
  ru : String
  en : String
deriving DecidableEq, Repr

/-- `r.get(lang, r["uz"])` — the label of a region in the active language. -/
def regionLabel (r : Region) (lang : Lang) : String :=
  match lang with
  | Lang.uz => r.uz
  | Lang.ru => r.ru
  | Lang.en => r.en

/- ----------------------------------------------------------------
   Python string primitives
   ---------------------------------------------------------------- -/

/-- Python `str.lower`, modelled for the character classes appearing in the
survey data: ASCII letters and the Cyrillic range А..Я (U+0410–U+042F, mapped
by +0x20, as Unicode does) plus Ё. -/
def pyLowerChar (c : Char) : Char :=
  if 'A' ≤ c ∧ c ≤ 'Z' then Char.ofNat (c.toNat + 32)
  else if 0x410 ≤ c.toNat ∧ c.toNat ≤ 0x42F then Char.ofNat (c.toNat + 0x20)
  else if c.toNat = 0x401 then Char.ofNat 0x451
  else c

/-- Python `str.lower` on a string. -/
def pyLowerStr (s : String) : String :=
  String.mk (s.data.map pyLowerChar)

/-- Python `str.strip()` (no argument): remove leading and trailing
whitespace. -/
def pyStrip (s : String) : String :=
  String.mk (((s.data.dropWhile Char.isWhitespace).reverse.dropWhile
    Char.isWhitespace).reverse)

/-- Numeric value of a string of decimal digits. -/
def natOfDigits (l : List Char) : Nat :=
  l.foldl (fun a c => a * 10 + (c.toNat - '0'.toNat)) 0

/-- Python `s.isdigit()` followed by `int(s)`: `some n` exactly when `s` is a
non-empty string of decimal digits. -/
def pyParseNatStr (s : String) : Option Nat :=
  if s.data ≠ [] ∧ s.data.all Char.isDigit then some (natOfDigits s.data)
  else none

/-- Python `int(s)` for a possibly signed decimal literal (surrounding
whitespace ignored); `none` models the `ValueError` path. -/
def pyInt (s : String) : Option Int :=
  match (pyStrip s).data with
  | '-' :: rest =>
    if rest ≠ [] ∧ rest.all Char.isDigit then some (-(natOfDigits rest : Int))
    else none
  | '+' :: rest =>
    if rest ≠ [] ∧ rest.all Char.isDigit then some ((natOfDigits rest : Int))
    else none
  | l =>
    if l ≠ [] ∧ l.all Char.isDigit then some ((natOfDigits l : Int)) else none

/-- Worker for Python `str.split(sep, maxsplit)` on char lists; `acc` holds the
current fragment reversed. -/
def pySplitCh (sep : Char) : List Char → Nat → List Char → List (List Char)
  | [], _, acc => [acc.reverse]
  | c :: cs, maxs, acc =>
    if c = sep ∧ 0 < maxs then acc.reverse :: pySplitCh sep cs (maxs - 1) []
    else pySplitCh sep cs maxs (c :: acc)

/-- Python `s.split(sep, maxsplit)`. -/
def pySplit (s : String) (sep : Char) (maxs : Nat) : List String :=
  (pySplitCh sep s.data maxs []).map String.mk

/-- Python `s.startswith(p)`. -/
def pyStartsWith (s p : String) : Bool :=
  p.data.isPrefixOf s.data

/-- `data.split(":", 1)[1]` — the text after the first colon. -/
def afterFirstColon (data : String) : String :=
  (pySplit data ':' 1).getD 1 ""
def SURVEY_PROFILE : List Question := [
  { id := "_section_1",
      kind := QKind.sect },
  { id := "region_city",
      kind := QKind.region },
  { id := "age_group",
      kind := QKind.choice,
      options := {
        uz := ["18 yoshgacha", "18–25", "26–35", "36–45", "46–55", "55 dan yuqori"],
        ru := ["до 18", "18–25", "26–35", "36–45", "46–55", "старше 55"],
        en := ["Under 18", "18–25", "26–35", "36–45", "46–55", "Above 55"] } },
  { id := "gender",
      kind := QKind.choice,
      options := {
        uz := ["Erkak", "Ayol"],
        ru := ["Мужчина", "Женщина"],
        en := ["Male", "Female"] } },
  { id := "employment",
      kind := QKind.choice,
      options := {
        uz := ["Ishlaydi (rasmiy)", "Ishlaydi (norasmiy)", "Tadbirkor", "O\x27zini-o\x27zi band qilgan", "Talaba", "Nafaqada", "Ishsiz"],
        ru := ["Работаю (официально)", "Работаю (неофициально)", "Предприниматель", "Самозанятый(ая)", "Студент(ка)", "На пенсии", "Безработный(ая)"],
        en := ["Employed (formal)", "Employed (informal)", "Entrepreneur", "Self-employed", "Student", "Retired", "Unemployed"] } },
  { id := "income",
      kind := QKind.choice,
      options := {
        uz := ["2 mln so\x27mgacha", "2–5 mln so\x27m", "5–10 mln so\x27m", "10–20 mln so\x27m", "20–50 mln so\x27m", "50 mln so\x27mdan yuqori"],
        ru := ["до 2 млн сум", "2–5 млн сум", "5–10 млн сум", "10–20 млн сум", "20–50 млн сум", "более 50 млн сум"],
        en := ["Up to 2 mln UZS", "2–5 mln UZS", "5–10 mln UZS", "10–20 mln UZS", "20–50 mln UZS", "Above 50 mln UZS"] } }
]

def Q_EVER_USED : Question :=
  { id := "ever_used",
      kind := QKind.choice,
      options := {
        uz := ["Ha", "Yo\x27q"],
        ru := ["Да", "Нет"],
        en := ["Yes", "No"] },
      is_branch_question := true }

def SURVEY_NO_BRANCH : List Question := [
  { id := "_section_2_no",
      kind := QKind.sect },
  { id := "heard_before",
      kind := QKind.choice,
      options := {
        uz := ["Ha", "Yo\x27q"],
        ru := ["Да", "Нет"],
        en := ["Yes", "No"] } },
  { id := "trust_level",
      kind := QKind.choice,
      options := {
        uz := ["Ha, ishonchim bor", "Qisman ishonaman", "Yo\x27q, ishonchim yo\x27q"],
        ru := ["Да, доверяю", "Частично доверяю", "Нет, не доверяю"],
        en := ["Yes, I trust them", "Partially trust", "No, I don\x27t trust them"] } },
  { id := "terms_understandable",
      kind := QKind.choice,
      options := {
        uz := ["Ha, to\x27liq tushunarli", "Qisman tushunarli", "Yo\x27q, tushunarsiz"],
        ru := ["Да, полностью понятны", "Частично понятны", "Нет, непонятны"],
        en := ["Yes, fully clear", "Partially clear", "No, unclear"] } },
  { id := "decision_factors",
      kind := QKind.multi,
      options := {
        uz := ["Foiz stavkasi / qo\x27shimcha to\x27lovlar", "Kredit tarixi salbiy bo\x27lishiga qaramasdan, foydalana olish imkoniyati", "Moslashuvchan to\x27lov muddati", "Kompaniyaning ishonchliligi", "Rasmiylashtirishning osonligi", "Do\x27kon / mahsulot turi", "Tavsiyalar (do\x27stlar, oila)"],
        ru := ["Процентная ставка / доп. платежи", "Возможность пользоваться даже с плохой кредитной историей", "Гибкий срок оплаты", "Надёжность компании", "Простота оформления", "Тип магазина / товара", "Рекомендации (друзья, семья)"],
        en := ["Interest rate / extra fees", "Ability to use despite bad credit history", "Flexible payment terms", "Company reliability", "Ease of application", "Store / product type", "Recommendations (friends, family)"] },
      max_select := some 7 },
  { id := "needed_sectors",
      kind := QKind.multi,
      options := {
        uz := ["Elektronika", "Maishiy texnika", "Mebel va jihoz", "Qurilish va ta\x27mirlash", "Oziq-ovqat mahsulotlari", "Kiyim-kechak", "Sayohat / xizmatlar", "Avtomashina", "Ko\x27chmas mulk (turar / noturar joy)", "Boshqa"],
        ru := ["Электроника", "Бытовая техника", "Мебель и оборудование", "Строительство и ремонт", "Продукты питания", "Одежда", "Путешествия / услуги", "Автомобиль", "Недвижимость", "Другое"],
        en := ["Electronics", "Home appliances", "Furniture & equipment", "Construction & renovation", "Food products", "Clothing", "Travel / services", "Car", "Real estate", "Other"] },
      max_select := some 10 },
  { id := "nu_impulse_buying",
      kind := QKind.choice,
      options := {
        uz := ["Ha", "Yo\x27q"],
        ru := ["Да", "Нет"],
        en := ["Yes", "No"] } },
  { id := "nu_need_regulation",
      kind := QKind.choice,
      options := {
        uz := ["Zarur", "Zarur emas", "Javob berishga qiynalaman"],
        ru := ["Нужно", "Не нужно", "Затрудняюсь ответить"],
        en := ["Necessary", "Not necessary", "Hard to say"] } }
]

def SURVEY_YES_BRANCH : List Question := [
  { id := "_section_2",
      kind := QKind.sect },
  { id := "freq_1y",
      kind := QKind.choice,
      options := {
        uz := ["1 marta", "2 marta", "3 marta", "4 va undan ko\x27p"],
        ru := ["1 раз", "2 раза", "3 раза", "4 и более"],
        en := ["Once", "Twice", "3 times", "4 or more"] } },
  { id := "usage_duration",
      kind := QKind.multi,
      options := {
        uz := ["1 oygacha", "3 oygacha", "6 oygacha", "12 oygacha", "18 oygacha", "24 oygacha", "24 oydan yuqori"],
        ru := ["до 1 месяца", "до 3 месяцев", "до 6 месяцев", "до 12 месяцев", "до 18 месяцев", "до 24 месяцев", "более 24 месяцев"],
        en := ["Up to 1 month", "Up to 3 months", "Up to 6 months", "Up to 12 months", "Up to 18 months", "Up to 24 months", "Over 24 months"] },
      max_select := some 7 },
  { id := "company_name",
      kind := QKind.multi,
      options := {
        uz := ["Alif nasiya", "Uzum nasiya", "TBC nasiya", "AllGood nasiya", "Texnomart", "Ishonch", "Mediapark", "Idea", "Yandex split", "Asaxiy", "Boshqa"],
        ru := ["Alif nasiya", "Uzum nasiya", "TBC nasiya", "AllGood nasiya", "Texnomart", "Ishonch", "Mediapark", "Idea", "Yandex split", "Asaxiy", "Другое"],
        en := ["Alif nasiya", "Uzum nasiya", "TBC nasiya", "AllGood nasiya", "Texnomart", "Ishonch", "Mediapark", "Idea", "Yandex split", "Asaxiy", "Other"] },
      max_select := some 11,
      has_other := true },
  { id := "avg_purchase",
      kind := QKind.choice,
      options := {
        uz := ["1 mln so\x27mgacha", "1–5 mln so\x27m", "6–10 mln so\x27m", "11–50 mln so\x27m", "50 mln so\x27mdan ortiq"],
        ru := ["до 1 млн сум", "1–5 млн сум", "6–10 млн сум", "11–50 млн сум", "более 50 млн сум"],
        en := ["Up to 1 mln UZS", "1–5 mln UZS", "6–10 mln UZS", "11–50 mln UZS", "Above 50 mln UZS"] } },
  { id := "product_types",
      kind := QKind.multi,
      options := {
        uz := ["Elektronika", "Maishiy texnika", "Mebel va jihoz", "Qurilish va ta\x27mirlash", "Oziq-ovqat mahsulotlari", "Kiyim-kechak", "Sayohat / xizmatlar", "Avtomashina", "Ko\x27chmas mulk (turar / noturar joy)", "Boshqa"],
        ru := ["Электроника", "Бытовая техника", "Мебель и оборудование", "Строительство и ремонт", "Продукты питания", "Одежда", "Путешествия / услуги", "Автомобиль", "Недвижимость", "Другое"],
        en := ["Electronics", "Home appliances", "Furniture & equipment", "Construction & renovation", "Food products", "Clothing", "Travel / services", "Car", "Real estate", "Other"] },
      max_select := some 10 },
  { id := "_section_3",
      kind := QKind.sect },
  { id := "multi_company_use",
      kind := QKind.choice,
      options := {
        uz := ["Ha", "Yo\x27q"],
        ru := ["Да", "Нет"],
        en := ["Yes", "No"] } },
  { id := "income_share_percent",
      kind := QKind.choice,
      options := {
        uz := ["10–25 foiz", "26–50 foiz", "51–100 foiz", "100 foizdan yuqori"],
        ru := ["10–25%", "26–50%", "51–100%", "более 100%"],
        en := ["10–25%", "26–50%", "51–100%", "Over 100%"] } },
  { id := "debt_burden_checked",
      kind := QKind.choice,
      options := {
        uz := ["Ha", "Yo\x27q"],
        ru := ["Да", "Нет"],
        en := ["Yes", "No"] } },
  { id := "_section_4",
      kind := QKind.sect },
  { id := "contract_terms_clear",
      kind := QKind.choice,
      options := {
        uz := ["Ha", "Yo\x27q"],
        ru := ["Да", "Нет"],
        en := ["Yes", "No"] } },
  { id := "total_cost_clear",
      kind := QKind.choice,
      options := {
        uz := ["Ha", "Yo\x27q"],
        ru := ["Да", "Нет"],
        en := ["Yes", "No"] } },
  { id := "schedule_given",
      kind := QKind.choice,
      options := {
        uz := ["Ha", "Yo\x27q"],
        ru := ["Да", "Нет"],
        en := ["Yes", "No"] } },
  { id := "_section_5",
      kind := QKind.sect },
  { id := "missed_payment",
      kind := QKind.choice,
      options := {
        uz := ["Ha", "Yo\x27q"],
        ru := ["Да", "Нет"],
        en := ["Yes", "No"] } },
  { id := "difficulty_reason",
      kind := QKind.choice,
      options := {
        uz := ["Daromadning kamayishi", "Ish yo\x27qotilishi", "Oylik to\x27lov daromaddan yuqoriligi", "Narxlar oshishi", "Sog\x27liq bilan bog\x27liq sabablar", "Boshqa"],
        ru := ["Снижение дохода", "Потеря работы", "Ежемесячный платёж выше дохода", "Рост цен", "Проблемы со здоровьем", "Другое"],
        en := ["Income decreased", "Job loss", "Monthly payment exceeds income", "Prices increased", "Health reasons", "Other"] } },
  { id := "borrowed_for_payments",
      kind := QKind.choice,
      options := {
        uz := ["Ha", "Yo\x27q"],
        ru := ["Да", "Нет"],
        en := ["Yes", "No"] } },
  { id := "cut_essential_spending",
      kind := QKind.choice,
      options := {
        uz := ["Ha", "Yo\x27q"],
        ru := ["Да", "Нет"],
        en := ["Yes", "No"] } },
  { id := "used_for_cash_need",
      kind := QKind.choice,
      options := {
        uz := ["Ha", "Yo\x27q"],
        ru := ["Да", "Нет"],
        en := ["Yes", "No"] } },
  { id := "_section_6",
      kind := QKind.sect },
  { id := "contact_methods",
      kind := QKind.multi,
      options := {
        uz := ["SMS xabarnomasi", "Telefon qo\x27ng\x27iroqlari", "Mobil ilova orqali bildirishnoma", "Avtomatik hisobdan yechish (avtospisaniya)", "Tashqi kollektor", "Sud orqali"],
        ru := ["SMS-уведомления", "Телефонные звонки", "Уведомления в приложении", "Автосписание", "Внешний коллектор", "Через суд"],
        en := ["SMS notifications", "Phone calls", "In-app notifications", "Auto-debit", "External collector", "Through court"] },
      max_select := some 6 },
  { id := "aggressive_collection",
      kind := QKind.choice,
      options := {
        uz := ["Ha", "Yo\x27q"],
        ru := ["Да", "Нет"],
        en := ["Yes", "No"] } },
  { id := "_section_7",
      kind := QKind.sect },
  { id := "complaint_submitted",
      kind := QKind.choice,
      options := {
        uz := ["Ha", "Yo\x27q"],
        ru := ["Да", "Нет"],
        en := ["Yes", "No"] } },
  { id := "complaint_reason",
      kind := QKind.multi,
      options := {
        uz := ["Yashirin to\x27lovlar va jarimalar", "Mijoz roziligisiz to\x27lov muddati yoki summaning o\x27zgartirilishi", "Mijoz ma\x27lumotlarining roziligisiz uchinchi shaxsga berilishi", "Mijoz hisobidan ruxsatsiz pul yechilishi", "Boshqa"],
        ru := ["Скрытые платежи и штрафы", "Изменение срока/суммы платежа без согласия клиента", "Передача данных клиента третьим лицам без согласия", "Списание средств со счёта без разрешения клиента", "Другое"],
        en := ["Hidden fees and penalties", "Payment term/amount changed without client consent", "Client data shared with third parties without consent", "Funds deducted from account without permission", "Other"] },
      max_select := some 5,
      conditional_on := some "complaint_submitted",
      conditional_value_yes := true },
  { id := "complaint_resolved",
      kind := QKind.choice,
      options := {
        uz := ["Ha", "Yo\x27q"],
        ru := ["Да", "Нет"],
        en := ["Yes", "No"] },
      conditional_on := some "complaint_submitted",
      conditional_value_yes := true },
  { id := "_section_8",
      kind := QKind.sect },
  { id := "impulse_buying",
      kind := QKind.choice,
      options := {
        uz := ["Ha", "Yo\x27q"],
        ru := ["Да", "Нет"],
        en := ["Yes", "No"] } },
  { id := "need_stricter_regulation",
      kind := QKind.choice,
      options := {
        uz := ["Zarur", "Zarur emas", "Javob berishga qiynalaman"],
        ru := ["Нужно", "Не нужно", "Затрудняюсь ответить"],
        en := ["Necessary", "Not necessary", "Hard to say"] } }
]

def UZB_REGIONS : List Region := [
  { id := "qr", uz := "Qoraqalpog\x27iston R.", ru := "Республика Каракалпакстан", en := "Republic of Karakalpakstan" },
  { id := "an", uz := "Andijon", ru := "Андижанская", en := "Andijan" },
  { id := "bu", uz := "Buxoro", ru := "Бухарская", en := "Bukhara" },
  { id := "ji", uz := "Jizzax", ru := "Джизакская", en := "Jizzakh" },
  { id := "qa", uz := "Qashqadaryo", ru := "Кашкадарьинская", en := "Kashkadarya" },
  { id := "na", uz := "Navoiy", ru := "Навоийская", en := "Navoi" },
  { id := "nm", uz := "Namangan", ru := "Наманганская", en := "Namangan" },
  { id := "sa", uz := "Samarqand", ru := "Самаркандская", en := "Samarkand" },
  { id := "su", uz := "Surxondaryo", ru := "Сурхандарьинская", en := "Surkhandarya" },
  { id := "si", uz := "Sirdaryo", ru := "Сырдарьинская", en := "Syrdarya" },
  { id := "ta", uz := "Toshkent vil.", ru := "Ташкентская обл.", en := "Tashkent Region" },
  { id := "tk", uz := "Toshkent shahri", ru := "г. Ташкент", en := "Tashkent City" },
  { id := "fa", uz := "Farg\x27ona", ru := "Ферганская", en := "Fergana" },
  { id := "xo", uz := "Xorazm", ru := "Хорезмская", en := "Khorezm" }
]

/- ----------------------------------------------------------------
   Survey graph construction and session state
   ---------------------------------------------------------------- -/

/-- `build_survey(branch)` — shared profile, the branch question, then the
branch-specific segment (`"no"` selects the non-user segment, anything else
the user segment). -/
def build_survey (branch : String) : List Question :=
  let base := SURVEY_PROFILE ++ [Q_EVER_USED]
  if branch = "no" then base ++ SURVEY_NO_BRANCH
  else base ++ SURVEY_YES_BRANCH

/-- A recorded answer value: Python stores strings, ints, or lists of option
labels in `ctx.user_data["answers"]`. -/
inductive Ans
  | s (v : String)
  | n (v : Int)
  | l (v : List String)
deriving DecidableEq, Repr

/-- Python `str(value)` for the three answer shapes (used by the conditional
predicate check on `answers.get(cond_on, "")`). -/
def ansToStr (a : Ans) : String :=
  match a with
  | Ans.s v => v
  | Ans.n v => toString v
  | Ans.l xs =>
    "[" ++ String.intercalate ", " (xs.map (fun x => "\x27" ++ x ++ "\x27")) ++ "]"

/-- Dictionary write `m[k] = v` on an association list (insertion-ordered, as
a Python dict): replace an existing binding in place, otherwise append. -/
def pyDictSet {β : Type} (m : List (String × β)) (k : String) (v : β) :
    List (String × β) :=
  if m.any (fun p => p.1 = k) then
    m.map (fun p => if p.1 = k then (k, v) else p)
  else m ++ [(k, v)]

/-- Dictionary read `m.get(k)`. -/
def pyDictGet {β : Type} (m : List (String × β)) (k : String) : Option β :=
  (m.find? (fun p => p.1 = k)).map (fun p => p.2)

/-- Write `ctx.user_data["answers"][k] = v`. -/
def setA (m : List (String × Ans)) (k : String) (v : Ans) : List (String × Ans) :=
  pyDictSet m k v

/-- Read `ctx.user_data["answers"].get(k)`. -/
def getA (m : List (String × Ans)) (k : String) : Option Ans :=
  pyDictGet m k

/-- Write into the per-question multi-select buffer table
(`ctx.user_data["multi:" + qid] = list(selected)`).  The buffer value is kept
as the set of toggled indices: every read in the source passes the stored
list through `normalize_multi_selection`, so only its set content is ever
observable. -/
def setBuf (m : List (String × Finset Nat)) (k : String) (v : Finset Nat) :
    List (String × Finset Nat) :=
  pyDictSet m k v

/-- Read `ctx.user_data.get("multi:" + qid, [])`. -/
def getBuf (m : List (String × Finset Nat)) (k : String) : Finset Nat :=
  (pyDictGet m k).getD ∅

/-- The handler-visible session state: the keys of `ctx.user_data` used by the
flow engine.  Default field values model the `.get(key, default)` reads of the
source, so the record with all fields defaulted is exactly the state right
after `ctx.user_data.clear()`.  The `answers` field is an `Option` because
the source distinguishes the `"answers"` key being absent (after `clear()`,
or before `on_go_start`) from holding a dict: reads go through
`ctx.user_data.get("answers", {})`, but the item-assignment
`ctx.user_data["answers"][k] = v` raises `KeyError` when the key is absent. -/
structure UserData where
  lang : Lang := Lang.uz
  branch : Option String := none
  q_index : Nat := 0
  answers : Option (List (String × Ans)) := none
  multiBuf : List (String × Finset Nat) := []
  region_page : Int := 0
  waiting_other_for : Option String := none
deriving DecidableEq

/-- The read `ctx.user_data.get("answers", {})` used by the skip loops and
the conditional predicate. -/
def ansMap (ud : UserData) : List (String × Ans) :=
  ud.answers.getD []

/-- `get_survey(ctx)` — `ctx.user_data.get("branch", "yes")` fed to
`build_survey`. -/
def get_survey (ud : UserData) : List Question :=
  build_survey (ud.branch.getD "yes")

/-- The language code string recorded by `on_go_start`. -/
def langCode (l : Lang) : String :=
  match l with
  | Lang.uz => "uz"
  | Lang.ru => "ru"
  | Lang.en => "en"

/- ----------------------------------------------------------------
   Validators and predicates
   ---------------------------------------------------------------- -/

/-- `normalize_number(s)`: strip, remove internal spaces, accept exactly a
non-empty all-digit string (Python `str.isdigit` + `int`). -/
def normalize_number (s : String) : Option Nat :=
  let t := (pyStrip s).data.filter (fun c => c ≠ ' ')
  if t ≠ [] ∧ t.all Char.isDigit then some (natOfDigits t) else none

/-- `is_yes_answer(ans, lang)`. -/
def is_yes_answer (ans : String) (lang : Lang) : Bool :=
  let a := pyLowerStr (pyStrip ans)
  match lang with
  | Lang.uz => a = "ha"
  | Lang.ru => a = "да"
  | Lang.en => a = "yes"

/-- `is_no_answer(ans, lang)`. -/
def is_no_answer (ans : String) (lang : Lang) : Bool :=
  let a := pyLowerStr (pyStrip ans)
  match lang with
  | Lang.uz => a = "yo\x27q" ∨ a = "yoq"
  | Lang.ru => a = "нет"
  | Lang.en => a = "no"

/-- `should_skip_conditional(q, answers, lang)`. -/
def should_skip_conditional (q : Question) (answers : List (String × Ans))
    (lang : Lang) : Bool :=
  match q.conditional_on with
  | none => false
  | some c =>
    let cond_val := (getA answers c).getD (Ans.s "")
    if q.conditional_value_yes then !(is_yes_answer (ansToStr cond_val) lang)
    else false

/-- `normalize_multi_selection(selected_raw, options)` restricted to the
integer entries the flow itself stores (the string-entry branch of the source
only rescues hand-written legacy values that this engine never writes): keep
the indices that are in range for the option list. -/
def normalize_multi_selection (raw : Finset Nat) (options : List String) :
    Finset Nat :=
  raw.filter (fun i => i < options.length)

/-- The set of "other"-escape marker labels (`{"boshqa", "другое", "other"}`),
compared case-insensitively against selected labels. -/
def otherLabels : List String := ["boshqa", "другое", "other"]

/-- `opts.index(opt)` guarded by `opt in opts`. -/
def pyIndexOf (opts : List String) (opt : String) : Nat :=
  match opts with
  | [] => 0
  | o :: rest => if o = opt then 0 else pyIndexOf rest opt + 1

/-- The multi-select toggle step of `on_callback` (`mul:` branch body): digits
toggle by index (no range check on insertion — out-of-range indices are
dropped by normalization on the next read), other payloads toggle by label
lookup; insertion is refused once the buffer holds `cap` elements. -/
def toggleMulti (opts : List String) (cap : Nat) (selected : Finset Nat)
    (opt : String) : Finset Nat :=
  match pyParseNatStr opt with
  | some idx =>
    if idx ∈ selected then selected.erase idx
    else if selected.card < cap then insert idx selected else selected
  | none =>
    if opt ∈ opts then
      let idx := pyIndexOf opts opt
      if idx ∈ selected then selected.erase idx
      else if selected.card < cap then insert idx selected else selected
    else selected

/- ----------------------------------------------------------------
   Engine outputs
   ---------------------------------------------------------------- -/

/-- Abstracted respondent-visible outputs of one engine step (messages and
keyboard edits; prompt texts are presentation data and are represented by the
question/section id they belong to). -/
inductive Emit
  | invalid
  | header (key : String)
  | ask (qid : String)
  | askOther
  | multiMarkup (qid : String)
  | regionsMarkup (page : Int)
  | saved
  | pyError
deriving DecidableEq, Repr

/-- The conversation-state value a handler returns (`SURVEY_FLOW` or
`ConversationHandler.END`). -/
inductive ConvRet
  | flow
  | stop
deriving DecidableEq, Repr

/- ----------------------------------------------------------------
   Skip resolution and question sending
   ---------------------------------------------------------------- -/

/-- Fuel-indexed skip loop shared by the three handlers: advance past section
markers and unmet conditionals.  Structural in the fuel so that it evaluates
by kernel reduction; every caller supplies fuel `survey.length + 1`, which is
never exhausted. -/
def skipStep (survey : List Question) (lang : Lang)
    (answers : List (String × Ans)) : Nat → Nat → Nat
  | 0, i => i
  | fuel + 1, i =>
    match survey[i]? with
    | none => i
    | some q =>
      if q.kind = QKind.sect ∨ should_skip_conditional q answers lang then
        skipStep survey lang answers fuel (i + 1)
      else i

/-- The skip loop of `on_callback` / `on_text` / `send_question`: first index
`≥ i` holding an answerable node, or an out-of-range index. -/
def skipTo (survey : List Question) (lang : Lang)
    (answers : List (String × Ans)) (i : Nat) : Nat :=
  skipStep survey lang answers (survey.length + 1) i

/-- The skip loop of `send_question`, which additionally emits each skipped
section header. -/
def sendLoopStep (survey : List Question) (lang : Lang)
    (answers : List (String × Ans)) : Nat → Nat → List Emit → Nat × List Emit
  | 0, i, acc => (i, acc)
  | fuel + 1, i, acc =>
    match survey[i]? with
    | none => (i, acc)
    | some q =>
      if q.kind = QKind.sect then
        sendLoopStep survey lang answers fuel (i + 1) (acc ++ [Emit.header q.id])
      else if should_skip_conditional q answers lang then
        sendLoopStep survey lang answers fuel (i + 1) acc
      else (i, acc)

/-- `finalize(update, ctx)`: hand the answers to the persistence collaborators
(abstracted), acknowledge with the "saved" message, and clear the session
(`ctx.user_data.clear()`). -/
def finalizeF (_ud : UserData) : UserData × List Emit :=
  ({}, [Emit.saved])

/-- `send_question(update, ctx)`: skip section headers (emitting them) and
unmet conditionals, then either present the question at the resulting
position or, at end-of-graph, run `finalize`. -/
def send_question (ud : UserData) : UserData × List Emit :=
  let survey := get_survey ud
  let r := sendLoopStep survey ud.lang (ansMap ud) (survey.length + 1) ud.q_index []
  let ud1 := { ud with q_index := r.1 }
  match survey[r.1]? with
  | none =>
    let f := finalizeF ud1
    (f.1, r.2 ++ f.2)
  | some q => (ud1, r.2 ++ [Emit.ask q.id])

/- ----------------------------------------------------------------
   Callback data parsing
   ---------------------------------------------------------------- -/

/-- Shape of inline-keyboard callback data, as classified by the prefix
checks of `on_callback`.  The prefixes (`noop`, `regpage:`, `reg:`, `ans:`,
`mul:`, `mul_done:`) are mutually exclusive, so hoisting the chain of
`startswith` tests plus the associated `split(":", ...)` calls into one
classification step preserves the source's dispatch order; payloads that the
source only parses under a kind guard (`int(...)` for `regpage`) are kept as
raw strings here and parsed at the use site. -/
inductive CbData
  | noop
  | regpage (rest : String)
  | reg (rest : String)
  | ans3 (qid idxText : String)
  | ans2 (t : String)
  | mul (qid opt : String)
  | mulShort (raw : String)
  | mulDone (rest : String)
  | unknown (raw : String)
deriving DecidableEq, Repr

/-- Classify callback data by the prefix tests of `on_callback`. -/
def parseCb (data : String) : CbData :=
  if data = "noop" then CbData.noop
  else if pyStartsWith data "regpage:" then CbData.regpage (afterFirstColon data)
  else if pyStartsWith data "reg:" then CbData.reg (afterFirstColon data)
  else if pyStartsWith data "ans:" then
    match pySplit data ':' 2 with
    | [_, q, t] => CbData.ans3 q t
    | [_, a] => CbData.ans2 a
    | _ => CbData.unknown data
  else if pyStartsWith data "mul:" then
    match pySplit data ':' 2 with
    | [_, q, o] => CbData.mul q o
    | _ => CbData.mulShort data
  else if pyStartsWith data "mul_done:" then CbData.mulDone (afterFirstColon data)
  else CbData.unknown data

/- ----------------------------------------------------------------
   Handlers
   ---------------------------------------------------------------- -/

/-- The answers-map update of the single-choice branch of `on_callback`:
record the chosen label, converting it to an integer for the
`satisfaction_1_5` question. -/
def choiceAnswers (m : List (String × Ans)) (qid ans : String) :
    List (String × Ans) :=
  let answers1 := setA m qid (Ans.s ans)
  if qid = "satisfaction_1_5" then
    match pyInt ans with
    | some v => setA answers1 qid (Ans.n v)
    | none => answers1
  else answers1

/-- The tail of the single-choice branch of `on_callback` once a non-`None`
answer string is in hand: record it, then either perform the `ever_used`
branch rebinding or advance by one, and re-present.  The first statement is
the item-assignment `ctx.user_data["answers"][qid] = ans`, which raises
`KeyError` when the `"answers"` key is absent (a post-`clear()` session),
leaving the session with only the skip-loop pointer update already applied. -/
def handleChoice (ud : UserData) (i : Nat) (q : Question) (ans : String) :
    UserData × List Emit × ConvRet :=
  match ud.answers with
  | none => (ud, [Emit.pyError], ConvRet.flow)
  | some m =>
  let ud1 := { ud with answers := some (choiceAnswers m q.id ans) }
  if q.is_branch_question then
    let tag := if is_no_answer ans ud1.lang then "no" else "yes"
    let ud2 := { ud1 with branch := some tag }
    let ns := build_survey tag
    let ud3 :=
      match ns.findIdx? (fun sq => sq.id = "ever_used") with
      | some j => { ud2 with q_index := j + 1 }
      | none => ud2
    let r := send_question ud3
    (r.1, r.2, ConvRet.flow)
  else
    let ud2 := { ud1 with q_index := i + 1 }
    let r := send_question ud2
    (r.1, r.2, ConvRet.flow)

/-- The `mul_done` answer construction
(`[opts[idx] for idx in sorted(selected) if 0 <= idx < len(opts)]`): the
normalized transient buffer, sorted by option index, converted to option
labels.  Since the normalized buffer only holds indices below `opts.length`,
sorting it and keeping the in-range indices is the same as walking
`0, ..., opts.length - 1` in order and keeping the selected ones, which is
how it is written here (an ascending enumeration that the kernel can
evaluate). -/
def mulDoneLabels (buf : Finset Nat) (opts : List String) : List String :=
  (((List.range opts.length).filter
    (fun idx => idx ∈ normalize_multi_selection buf opts))).map
    (fun idx => opts.getD idx "")

/-- `on_callback(update, ctx)` with the survey list (the source's
`survey = get_survey(ctx)` read) passed explicitly. -/
def on_callback_in (survey : List Question) (ud0 : UserData) (data : String) :
    UserData × List Emit × ConvRet :=
  let cb := parseCb data
  if cb = CbData.noop then (ud0, [], ConvRet.flow)
  else
    let i := skipTo survey ud0.lang (ansMap ud0) ud0.q_index
    let ud := { ud0 with q_index := i }
    match survey[i]? with
    | none =>
      let f := finalizeF ud
      (f.1, f.2, ConvRet.stop)
    | some q =>
      match cb with
      | CbData.noop => (ud, [], ConvRet.flow)
      | CbData.regpage rest =>
        if q.kind = QKind.region then
          match pyInt rest with
          | some p => ({ ud with region_page := p }, [Emit.regionsMarkup p], ConvRet.flow)
          | none => (ud, [Emit.pyError], ConvRet.flow)
        else (ud, [Emit.invalid], ConvRet.flow)
      | CbData.reg rest =>
        if q.kind = QKind.region then
          match UZB_REGIONS.find? (fun r => r.id = rest) with
          | none => (ud, [Emit.invalid], ConvRet.flow)
          | some r =>
            match ud.answers with
            | none => (ud, [Emit.pyError], ConvRet.flow)
            | some m =>
              let ud1 := { ud with
                answers := some (setA (setA m "region_city_id" (Ans.s rest))
                  q.id (Ans.s (regionLabel r ud.lang))),
                region_page := 0, q_index := i + 1 }
              let r2 := send_question ud1
              (r2.1, r2.2, ConvRet.flow)
        else (ud, [Emit.invalid], ConvRet.flow)
      | CbData.ans3 qid idxText =>
        if q.kind = QKind.choice then
          if qid ≠ q.id then (ud, [], ConvRet.flow)
          else
            match pyParseNatStr idxText with
            | some idx =>
              let opts := getOpts q.options ud.lang
              if idx < opts.length then handleChoice ud i q (opts.getD idx "")
              else (ud, [Emit.invalid], ConvRet.flow)
            | none => (ud, [Emit.invalid], ConvRet.flow)
        else (ud, [Emit.invalid], ConvRet.flow)
      | CbData.ans2 a =>
        if q.kind = QKind.choice then handleChoice ud i q a
        else (ud, [Emit.invalid], ConvRet.flow)
      | CbData.mul qid opt =>
        if q.kind = QKind.multi then
          if qid ≠ q.id then (ud, [], ConvRet.flow)
          else
            let opts := getOpts q.options ud.lang
            let selected := normalize_multi_selection (getBuf ud.multiBuf q.id) opts
            let sel2 := toggleMulti opts (q.max_select.getD 7) selected opt
            ({ ud with multiBuf := setBuf ud.multiBuf q.id sel2 },
              [Emit.multiMarkup q.id], ConvRet.flow)
        else (ud, [Emit.invalid], ConvRet.flow)
      | CbData.mulShort _ =>
        if q.kind = QKind.multi then (ud, [Emit.pyError], ConvRet.flow)
        else (ud, [Emit.invalid], ConvRet.flow)
      | CbData.mulDone qid2 =>
        if q.kind = QKind.multi then
          if qid2 ≠ q.id then (ud, [], ConvRet.flow)
          else
            let opts := getOpts q.options ud.lang
            let labels := mulDoneLabels (getBuf ud.multiBuf q.id) opts
            match ud.answers with
            | none => (ud, [Emit.pyError], ConvRet.flow)
            | some m =>
              let ud1 := { ud with answers := some (setA m q.id (Ans.l labels)) }
              if q.has_other ∧ labels.any (fun lbl => pyLowerStr lbl ∈ otherLabels) then
                ({ ud1 with waiting_other_for := some q.id }, [Emit.askOther], ConvRet.flow)
              else
                let ud2 := { ud1 with q_index := i + 1 }
                let r2 := send_question ud2
                (r2.1, r2.2, ConvRet.flow)
        else (ud, [Emit.invalid], ConvRet.flow)
      | CbData.unknown _ => (ud, [Emit.invalid], ConvRet.flow)

/-- The per-kind body of `on_text` for the current question (kinds `text`,
`number`, `percent`): `some` is the normalized value to record, `none` the
validation rejection; every other kind falls through to the rejection reply
as in the source. -/
def handleTextAnswer (q : Question) (msg : String) : Option Ans :=
  match q.kind with
  | QKind.text => if msg.length < 1 then none else some (Ans.s msg)
  | QKind.number =>
    match normalize_number msg with
    | none => none
    | some n =>
      let mn := q.min.getD (-(10 ^ 9 : Int))
      let mx := q.max.getD ((10 ^ 9 : Int))
      if (n : Int) < mn ∨ mx < (n : Int) then none else some (Ans.n (n : Int))
  | QKind.percent =>
    match normalize_number msg with
    | none => none
    | some n =>
      if (n : Int) < 0 ∨ (100 : Int) < (n : Int) then none else some (Ans.n (n : Int))
  | _ => none

/-- `on_text(update, ctx)` with the survey list passed explicitly.  The
pending-override branch runs before the skip loop, exactly as in the
source. -/
def on_text_in (survey : List Question) (ud0 : UserData) (t : String) :
    UserData × List Emit × ConvRet :=
  let msg := pyStrip t
  match ud0.waiting_other_for with
  | some w =>
    if msg.length < 1 then (ud0, [Emit.invalid], ConvRet.flow)
    else
      match ud0.answers with
      | none => (ud0, [Emit.pyError], ConvRet.flow)
      | some m =>
        let cur :=
          match getA m w with
          | some (Ans.l xs) => xs
          | _ => []
        let updated := cur.map (fun item =>
          if pyLowerStr item ∈ otherLabels then msg else item)
        let ud1 := { ud0 with
          answers := some (setA m w (Ans.l updated)),
          waiting_other_for := none, q_index := ud0.q_index + 1 }
        let r := send_question ud1
        (r.1, r.2, ConvRet.flow)
  | none =>
    let i := skipTo survey ud0.lang (ansMap ud0) ud0.q_index
    let ud := { ud0 with q_index := i }
    match survey[i]? with
    | none =>
      let f := finalizeF ud
      (f.1, f.2, ConvRet.stop)
    | some q =>
      match handleTextAnswer q msg with
      | some a =>
        match ud.answers with
        | none => (ud, [Emit.pyError], ConvRet.flow)
        | some m =>
          let ud1 := { ud with answers := some (setA m q.id a), q_index := i + 1 }
          let r := send_question ud1
          (r.1, r.2, ConvRet.flow)
      | none => (ud, [Emit.invalid], ConvRet.flow)

/-- `on_callback` reading the survey from the session, as the source does. -/
def on_callback (ud : UserData) (data : String) : UserData × List Emit × ConvRet :=
  on_callback_in (get_survey ud) ud data

/-- `on_text` reading the survey from the session. -/
def on_text (ud : UserData) (t : String) : UserData × List Emit × ConvRet :=
  on_text_in (get_survey ud) ud t

/-- One inbound respondent action routed by the `SURVEY_FLOW` conversation
state: a callback query or a text message. -/
inductive Act
  | cb (data : String)
  | msg (t : String)

/-- Dispatch of one respondent action against an explicit survey list. -/
def stepIn (survey : List Question) (ud : UserData) : Act → UserData × List Emit × ConvRet
  | Act.cb data => on_callback_in survey ud data
  | Act.msg t => on_text_in survey ud t

/-- `on_go_start(update, ctx)`: initialize position, pagination, the default
branch tag and the base answer record, then present the first question.
`ts`, `uid`, `un` abstract the runtime timestamp and user identity. -/
def on_go_start (ud : UserData) (ts uid un : String) : UserData × List Emit × ConvRet :=
  let ud1 := { ud with
    q_index := 0, region_page := 0, branch := some "yes",
    answers := some [("timestamp", Ans.s ts), ("user_id", Ans.s uid),
      ("username", Ans.s un), ("language", Ans.s (langCode ud.lang))] }
  let r := send_question ud1
  (r.1, r.2, ConvRet.flow)

/- ----------------------------------------------------------------
   Region keyboard builder
   ---------------------------------------------------------------- -/

/-- Abstraction of the region inline keyboard: the rendered page of region
buttons (label and callback payload), the clamped page index, and the
navigation affordances (row grouping of two buttons per row is presentation
detail and is not modelled). -/
structure KbRegions where
  buttons : List (String × String) := []
  page : Int := 0
  max_page : Nat := 0
  hasPrev : Bool := false
  hasNext : Bool := false
deriving DecidableEq, Repr

/-- `kb_regions(lang, page, per_page)`: clamp the requested page into
`[0, max_page - 1]` and slice the fixed region list. -/
def kb_regions (lang : Lang) (page : Int) (per_page : Nat) : KbRegions :=
  let total := UZB_REGIONS.length
  if total = 0 then {}
  else
    let max_page := (total + per_page - 1) / per_page
    let page2 : Int := max 0 (min page ((max_page : Int) - 1))
    let start := page2.toNat * per_page
    let e := min (start + per_page) total
    let chunk := (UZB_REGIONS.drop start).take (e - start)
    { buttons := chunk.map (fun r => (regionLabel r lang, "reg:" ++ r.id)),
      page := page2,
      max_page := max_page,
      hasPrev := 0 < page2,
      hasNext := e < total }

/- ----------------------------------------------------------------
   Reachable session states
   ---------------------------------------------------------------- -/

/-- Session states reachable through the conversation: a fresh state after
`/start` + language selection, then closed under `on_go_start` (the `go:start`
button, reachable at any time from the `SURVEY_FLOW` state) and the two
`SURVEY_FLOW` handlers. -/
inductive Reachable : UserData → Prop
  | init (l : Lang) : Reachable { lang := l }
  | goS {ud : UserData} (ts uid un : String) :
      Reachable ud → Reachable (on_go_start ud ts uid un).1
  | cbStep {ud : UserData} (data : String) :
      Reachable ud → Reachable (on_callback ud data).1
  | txtStep {ud : UserData} (t : String) :
      Reachable ud → Reachable (on_text ud t).1

/- ----------------------------------------------------------------
   Dictionary lemmas
   ---------------------------------------------------------------- -/

theorem find?_set_map_ne {β : Type} (m : List (String × β)) (k k' : String) (v : β)
    (h : k' ≠ k) :
    (m.map (fun p => if p.1 = k then (k, v) else p)).find? (fun p => p.1 = k')
      = m.find? (fun p => p.1 = k') := by
  induction m with
  | nil => rfl
  | cons p rest ih =>
    by_cases hp : p.1 = k
    · rw [List.map_cons, if_pos hp]
      rw [List.find?_cons_of_neg _ (by simp only [decide_eq_true_eq]; exact fun hh => h hh.symm)]
      rw [List.find?_cons_of_neg _ (by simp only [decide_eq_true_eq, hp]; exact fun hh => h hh.symm)]
      exact ih
    · rw [List.map_cons, if_neg hp]
      by_cases hp' : p.1 = k'
      · rw [List.find?_cons_of_pos _ (by simpa using hp'),
          List.find?_cons_of_pos _ (by simpa using hp')]
      · rw [List.find?_cons_of_neg _ (by simpa using hp'),
          List.find?_cons_of_neg _ (by simpa using hp')]
        exact ih

theorem find?_set_map_self {β : Type} (m : List (String × β)) (k : String) (v : β)
    (hany : m.any (fun p => p.1 = k) = true) :
    (m.map (fun p => if p.1 = k then (k, v) else p)).find? (fun p => p.1 = k)
      = some (k, v) := by
  induction m with
  | nil => simp at hany
  | cons p rest ih =>
    by_cases hp : p.1 = k
    · rw [List.map_cons, if_pos hp, List.find?_cons_of_pos _ (by simp)]
    · rw [List.map_cons, if_neg hp, List.find?_cons_of_neg _ (by simpa using hp)]
      exact ih (by simpa [List.any_cons, hp] using hany)

theorem pyDictGet_set_self {β : Type} (m : List (String × β)) (k : String) (v : β) :
    pyDictGet (pyDictSet m k v) k = some v := by
  rw [pyDictSet]
  by_cases hany : m.any (fun p => p.1 = k) = true
  · rw [if_pos hany, pyDictGet, find?_set_map_self m k v hany]
    rfl
  · rw [if_neg hany, pyDictGet, List.find?_append]
    have hnone : m.find? (fun p => decide (p.1 = k)) = none := by
      rw [List.find?_eq_none]
      intro x hx
      simp only [decide_eq_true_eq]
      intro hxk
      exact hany (List.any_eq_true.mpr ⟨x, hx, by simpa using hxk⟩)
    rw [hnone]
    simp [List.find?]

theorem pyDictGet_set_ne {β : Type} (m : List (String × β)) (k k' : String) (v : β)
    (h : k' ≠ k) : pyDictGet (pyDictSet m k v) k' = pyDictGet m k' := by
  rw [pyDictSet]
  by_cases hany : m.any (fun p => p.1 = k) = true
  · rw [if_pos hany, pyDictGet, find?_set_map_ne m k k' v h, pyDictGet]
  · rw [if_neg hany, pyDictGet, List.find?_append]
    have hnone : List.find? (fun p => decide (p.1 = k')) [(k, v)] = none := by
      simp only [List.find?, decide_eq_true_eq]
      rw [decide_eq_false (fun hh => h hh.symm)]
    rw [hnone, pyDictGet]
    cases m.find? (fun p => decide (p.1 = k')) <;> rfl

theorem getA_set_self (m : List (String × Ans)) (k : String) (v : Ans) :
    getA (setA m k v) k = some v := pyDictGet_set_self m k v

theorem getA_set_ne (m : List (String × Ans)) (k k' : String) (v : Ans)
    (h : k' ≠ k) : getA (setA m k v) k' = getA m k' := pyDictGet_set_ne m k k' v h

theorem getBuf_set_self (m : List (String × Finset Nat)) (k : String) (v : Finset Nat) :
    getBuf (setBuf m k v) k = v := by
  rw [getBuf, setBuf, pyDictGet_set_self]
  rfl

theorem getBuf_set_ne (m : List (String × Finset Nat)) (k k' : String) (v : Finset Nat)
    (h : k' ≠ k) : getBuf (setBuf m k v) k' = getBuf m k' := by
  rw [getBuf, setBuf, pyDictGet_set_ne m k k' v h, getBuf]

/- ----------------------------------------------------------------
   Skip-loop lemmas
   ---------------------------------------------------------------- -/

theorem le_skipStep (survey : List Question) (lang : Lang)
    (answers : List (String × Ans)) :
    ∀ fuel i, i ≤ skipStep survey lang answers fuel i := by
  intro fuel
  induction fuel with
  | zero => intro i; simp [skipStep]
  | succ f ih =>
    intro i
    simp only [skipStep]
    split
    · exact Nat.le_refl i
    · split
      · exact Nat.le_trans (Nat.le_succ i) (ih (i + 1))
      · exact Nat.le_refl i

theorem le_skipTo (survey : List Question) (lang : Lang)
    (answers : List (String × Ans)) (i : Nat) :
    i ≤ skipTo survey lang answers i :=
  le_skipStep survey lang answers (survey.length + 1) i

theorem skipStep_answerable (survey : List Question) (lang : Lang)
    (answers : List (String × Ans)) :
    ∀ fuel i, survey.length ≤ i + fuel →
      survey.length ≤ skipStep survey lang answers fuel i ∨
      ∃ q, survey[skipStep survey lang answers fuel i]? = some q ∧
        ¬(q.kind = QKind.sect ∨ should_skip_conditional q answers lang = true) := by
  intro fuel
  induction fuel with
  | zero =>
    intro i h
    left
    simpa [skipStep] using h
  | succ f ih =>
    intro i h
    simp only [skipStep]
    split
    · rename_i heq
      left
      exact List.getElem?_eq_none_iff.mp heq
    · rename_i q heq
      split
      · exact ih (i + 1) (by omega)
      · rename_i hcond
        right
        exact ⟨q, heq, hcond⟩

theorem skipTo_answerable (survey : List Question) (lang : Lang)
    (answers : List (String × Ans)) (i : Nat) :
    survey.length ≤ skipTo survey lang answers i ∨
    ∃ q, survey[skipTo survey lang answers i]? = some q ∧
      ¬(q.kind = QKind.sect ∨ should_skip_conditional q answers lang = true) :=
  skipStep_answerable survey lang answers (survey.length + 1) i (by omega)

theorem skipTo_id (survey : List Question) (lang : Lang)
    (answers : List (String × Ans)) (i : Nat) (q : Question)
    (h : survey[i]? = some q)
    (hq : ¬(q.kind = QKind.sect ∨ should_skip_conditional q answers lang = true)) :
    skipTo survey lang answers i = i := by
  rw [skipTo]
  simp only [skipStep]
  rw [h]
  simp only [if_neg hq]

theorem skipTo_oob (survey : List Question) (lang : Lang)
    (answers : List (String × Ans)) (i : Nat) (h : survey.length ≤ i) :
    skipTo survey lang answers i = i := by
  rw [skipTo]
  simp only [skipStep]
  rw [List.getElem?_eq_none h]

theorem le_sendLoopStep_fst (survey : List Question) (lang : Lang)
    (answers : List (String × Ans)) :
    ∀ fuel i acc, i ≤ (sendLoopStep survey lang answers fuel i acc).1 := by
  intro fuel
  induction fuel with
  | zero => intro i acc; simp [sendLoopStep]
  | succ f ih =>
    intro i acc
    simp only [sendLoopStep]
    split
    · exact Nat.le_refl i
    · split
      · exact Nat.le_trans (Nat.le_succ i) (ih (i + 1) _)
      · split
        · exact Nat.le_trans (Nat.le_succ i) (ih (i + 1) _)
        · exact Nat.le_refl i

/-- `send_question` either clears the session (terminal position) or only
moves the position pointer forward. -/
theorem send_question_cases (ud : UserData) :
    (send_question ud).1 = ({} : UserData) ∨
    ∃ j, ud.q_index ≤ j ∧ (send_question ud).1 = { ud with q_index := j } := by
  rw [send_question]
  split
  · exact Or.inl rfl
  · exact Or.inr ⟨_, le_sendLoopStep_fst _ _ _ _ _ _, rfl⟩

/-- With the position at or past the end of the effective graph,
`send_question` runs `finalize`: one completion dispatch and a cleared
session. -/
theorem send_question_at_end (ud : UserData)
    (h : (get_survey ud).length ≤ ud.q_index) :
    send_question ud = (({} : UserData), [Emit.saved]) := by
  rw [send_question]
  have h0 : (get_survey ud)[ud.q_index]? = none := List.getElem?_eq_none h
  simp only [sendLoopStep, h0, finalizeF, List.nil_append]

/- ----------------------------------------------------------------
   Static facts about the two effective graphs
   ---------------------------------------------------------------- -/

/-- Decidable structural facts about an effective graph, verified once for
both branch variants: where the region question, the branch question, the
"other"-escape multi question and the conditional sub-questions sit. -/
def surveyOk (S : List Question) : Prop :=
  ∀ i, (h : i < S.length) →
    ((S.get ⟨i, h⟩).kind = QKind.region → (S.get ⟨i, h⟩).id = "region_city") ∧
    ((S.get ⟨i, h⟩).has_other = true → (S.get ⟨i, h⟩).id = "company_name") ∧
    ((S.get ⟨i, h⟩).is_branch_question = true →
      i = 6 ∧ (S.get ⟨i, h⟩).id = "ever_used") ∧
    ((S.get ⟨i, h⟩).id = "complaint_submitted" → i ≤ 31) ∧
    (((S.get ⟨i, h⟩).id = "complaint_reason" ∨
        (S.get ⟨i, h⟩).id = "complaint_resolved") →
      (S.get ⟨i, h⟩).conditional_on = some "complaint_submitted" ∧
      (S.get ⟨i, h⟩).conditional_value_yes = true ∧ 32 ≤ i) ∧
    ((S.get ⟨i, h⟩).conditional_on ≠ none →
      ((S.get ⟨i, h⟩).id = "complaint_reason" ∨
        (S.get ⟨i, h⟩).id = "complaint_resolved")) ∧
    ((S.get ⟨i, h⟩).kind ≠ QKind.text ∧ (S.get ⟨i, h⟩).kind ≠ QKind.number ∧
      (S.get ⟨i, h⟩).kind ≠ QKind.percent)

theorem surveyOk_no : surveyOk (build_survey "no") := by
  unfold surveyOk
  decide

theorem surveyOk_yes : surveyOk (build_survey "yes") := by
  unfold surveyOk
  decide

theorem build_survey_cases (s : String) :
    build_survey s = build_survey "no" ∨ build_survey s = build_survey "yes" := by
  by_cases h : s = "no"
  · left
    rw [build_survey, build_survey, if_pos h, if_pos rfl]
  · right
    rw [build_survey, build_survey, if_neg h, if_neg (by decide)]

theorem surveyOk_get (ud : UserData) : surveyOk (get_survey ud) := by
  rcases build_survey_cases (ud.branch.getD "yes") with h | h <;> rw [get_survey, h]
  · exact surveyOk_no
  · exact surveyOk_yes

/- ----------------------------------------------------------------
   The conditional-question invariant
   ---------------------------------------------------------------- -/

/-- Session invariant backing the conditional-question property: whenever one
of the two conditional sub-questions has a recorded answer, the predicate
answer (`complaint_submitted`) is affirmative in the session language and the
position pointer is already past the conditional block; and a pending
free-text override can only ever point at the one "other"-escape question. -/
def SessionInv (ud : UserData) : Prop :=
  ((getA (ansMap ud) "complaint_reason").isSome = true ∨
      (getA (ansMap ud) "complaint_resolved").isSome = true →
    is_yes_answer
      (ansToStr ((getA (ansMap ud) "complaint_submitted").getD (Ans.s ""))) ud.lang
      = true
    ∧ 32 ≤ ud.q_index)
  ∧ (∀ w, ud.waiting_other_for = some w → w = "company_name")

theorem inv_empty : SessionInv ({} : UserData) := by
  constructor
  · intro h
    rcases h with h | h <;> simp [ansMap, getA, pyDictGet] at h
  · intro w hw
    simp at hw

theorem inv_of_parts {ud ud' : UserData} (h : SessionInv ud)
    (hans : ud'.answers = ud.answers) (hlang : ud'.lang = ud.lang)
    (hw : ud'.waiting_other_for = ud.waiting_other_for)
    (hqi : ud.q_index ≤ ud'.q_index) : SessionInv ud' := by
  have hmap : ansMap ud' = ansMap ud := by simp only [ansMap, hans]
  constructor
  · intro hant
    rw [hmap] at hant
    rcases h.1 hant with ⟨h1, h2⟩
    rw [hmap, hlang]
    exact ⟨h1, Nat.le_trans h2 hqi⟩
  · intro w hw'
    rw [hw] at hw'
    exact h.2 w hw'

theorem inv_send {ud : UserData} (h : SessionInv ud) : SessionInv (send_question ud).1 := by
  rcases send_question_cases ud with hc | ⟨j, hj, hc⟩
  · rw [hc]; exact inv_empty
  · rw [hc]
    exact inv_of_parts h rfl rfl rfl hj

theorem inv_go {ud : UserData} (h : SessionInv ud) (ts uid un : String) :
    SessionInv (on_go_start ud ts uid un).1 := by
  simp only [on_go_start]
  apply inv_send
  constructor
  · intro hant
    exfalso
    rcases hant with hh | hh <;>
      simp [ansMap, getA, pyDictGet, List.find?] at hh
  · intro w hw
    exact h.2 w hw

theorem isYes_of_not_skip {q : Question} {answers : List (String × Ans)}
    {lang : Lang} (hcon : q.conditional_on = some "complaint_submitted")
    (hcy : q.conditional_value_yes = true)
    (hns : should_skip_conditional q answers lang = false) :
    is_yes_answer
      (ansToStr ((getA answers "complaint_submitted").getD (Ans.s ""))) lang
      = true := by
  rw [should_skip_conditional, hcon] at hns
  simp only [hcy, if_true] at hns
  simpa using hns

theorem getA_choiceAnswers_ne (m : List (String × Ans)) (qid ans k' : String)
    (hk : k' ≠ qid) : getA (choiceAnswers m qid ans) k' = getA m k' := by
  rw [choiceAnswers]
  by_cases hs : qid = "satisfaction_1_5"
  · simp only [if_pos hs]
    cases hpi : pyInt ans with
    | none => exact getA_set_ne _ _ _ _ hk
    | some v => rw [getA_set_ne _ _ _ _ hk, getA_set_ne _ _ _ _ hk]
  · simp only [if_neg hs]
    exact getA_set_ne _ _ _ _ hk

/-- Core preservation argument for any handler branch that records a value for
the current (answerable, skip-resolved) question: the only answers-map keys it
may touch besides the current question id are non-complaint keys, the
language is unchanged, and the pointer does not move backwards past the
current node. -/
theorem inv_record_state {survey : List Question} {i : Nat} {q : Question}
    {ud ud' : UserData}
    (hOk : surveyOk survey) (hq : survey[i]? = some q)
    (hns : should_skip_conditional q (ansMap ud) ud.lang = false)
    (h : SessionInv ud) (hqi : ud.q_index ≤ i)
    (hlang : ud'.lang = ud.lang)
    (hij : i ≤ ud'.q_index)
    (hne : ∀ k, (k = "complaint_reason" ∨ k = "complaint_resolved" ∨
        k = "complaint_submitted") → k ≠ q.id →
      getA (ansMap ud') k = getA (ansMap ud) k)
    (hw : ∀ w, ud'.waiting_other_for = some w → w = "company_name") :
    SessionInv ud' := by
  refine ⟨?_, hw⟩
  intro hant
  rw [hlang]
  rcases List.getElem?_eq_some.mp hq with ⟨hlen, hgete⟩
  have hfacts := hOk i hlen
  simp only [List.get_eq_getElem, hgete] at hfacts
  obtain ⟨fReg, fOther, fBranch, fSub, fCond, fCondOnly, fKinds⟩ := hfacts
  by_cases hqr : q.id = "complaint_reason" ∨ q.id = "complaint_resolved"
  · obtain ⟨hcon, hcy, h32⟩ := fCond hqr
    have hsubne : ("complaint_submitted" : String) ≠ q.id := by
      rcases hqr with hh | hh <;> rw [hh] <;> decide
    rw [hne _ (by right; right; rfl) hsubne]
    exact ⟨isYes_of_not_skip hcon hcy hns, Nat.le_trans h32 hij⟩
  · push_neg at hqr
    obtain ⟨hr1, hr2⟩ := hqr
    rw [hne _ (by left; rfl) (fun hh => hr1 hh.symm),
      hne _ (by right; left; rfl) (fun hh => hr2 hh.symm)] at hant
    rcases h.1 hant with ⟨hyes, h32⟩
    by_cases hqs : q.id = "complaint_submitted"
    · exfalso
      have hle : i ≤ 31 := fSub hqs
      omega
    · rw [hne _ (by right; right; rfl) (fun hh => hqs hh.symm)]
      exact ⟨hyes, by omega⟩

theorem inv_handleChoice {survey : List Question} {ud : UserData} {i : Nat}
    {q : Question} (ans : String)
    (hOk : surveyOk survey) (hq : survey[i]? = some q)
    (hia : ud.q_index = i)
    (hns : should_skip_conditional q (ansMap ud) ud.lang = false)
    (h : SessionInv ud) : SessionInv (handleChoice ud i q ans).1 := by
  rcases List.getElem?_eq_some.mp hq with ⟨hlen, hgete⟩
  have hfacts := hOk i hlen
  simp only [List.get_eq_getElem, hgete] at hfacts
  obtain ⟨fReg, fOther, fBranch, fSub, fCond, fCondOnly, fKinds⟩ := hfacts
  simp only [handleChoice]
  cases ham : ud.answers with
  | none =>
    simp only [ham]
    exact h
  | some m =>
    simp only [ham]
    have hmm : ansMap ud = m := by simp only [ansMap, ham, Option.getD_some]
    have hne : ∀ k, k ≠ q.id →
        getA (choiceAnswers m q.id ans) k = getA (ansMap ud) k :=
      fun k hk => (getA_choiceAnswers_ne m q.id ans k hk).trans (by rw [hmm])
    cases hb : q.is_branch_question with
    | true =>
      simp only [hb, if_true]
      obtain ⟨hi6, hid⟩ := fBranch hb
      have hfls : ¬((getA (choiceAnswers m q.id ans) "complaint_reason").isSome = true ∨
          (getA (choiceAnswers m q.id ans) "complaint_resolved").isSome = true) := by
        intro hant
        have hant' : (getA (ansMap ud) "complaint_reason").isSome = true ∨
            (getA (ansMap ud) "complaint_resolved").isSome = true := by
          rcases hant with hh | hh
          · left; rwa [hne _ (by rw [hid]; decide)] at hh
          · right; rwa [hne _ (by rw [hid]; decide)] at hh
        rcases h.1 hant' with ⟨_, h32⟩
        omega
      apply inv_send
      cases hfi : (build_survey (if is_no_answer ans ud.lang then "no" else "yes")).findIdx?
          (fun sq => sq.id = "ever_used") with
      | none =>
        simp only [hfi]
        exact ⟨fun hant => absurd hant hfls, fun w hw => h.2 w hw⟩
      | some j =>
        simp only [hfi]
        exact ⟨fun hant => absurd hant hfls, fun w hw => h.2 w hw⟩
    | false =>
      simp only [hb, Bool.false_eq_true, if_false]
      apply inv_send
      exact inv_record_state hOk hq hns h (by omega) rfl (Nat.le_succ i)
        (fun k _ hk => hne k hk) (fun w hw => h.2 w hw)

theorem inv_cb {ud : UserData} (h : SessionInv ud) (data : String) :
    SessionInv (on_callback ud data).1 := by
  have hOk := surveyOk_get ud
  rw [on_callback]
  simp only [on_callback_in]
  by_cases hn : parseCb data = CbData.noop
  · simp only [if_pos hn]
    exact h
  · simp only [if_neg hn]
    have hii : ud.q_index ≤ skipTo (get_survey ud) ud.lang (ansMap ud) ud.q_index :=
      le_skipTo _ _ _ _
    have hudS : SessionInv
        { ud with q_index := skipTo (get_survey ud) ud.lang (ansMap ud) ud.q_index } :=
      inv_of_parts h rfl rfl rfl hii
    cases hsq : (get_survey ud)[skipTo (get_survey ud) ud.lang (ansMap ud) ud.q_index]? with
    | none =>
      simp only [hsq]
      exact inv_empty
    | some q =>
      simp only [hsq]
      have hanr := skipTo_answerable (get_survey ud) ud.lang (ansMap ud) ud.q_index
      have hns : should_skip_conditional q (ansMap ud) ud.lang = false := by
        rcases hanr with hle | ⟨q', hq', hcond⟩
        · rw [List.getElem?_eq_none hle] at hsq
          exact Option.noConfusion hsq
        · have hqq : q' = q := Option.some.inj (hq'.symm.trans hsq)
          subst hqq
          have := (not_or.mp hcond).2
          simpa using this
      rcases List.getElem?_eq_some.mp hsq with ⟨hlen, hgete⟩
      have hfacts := hOk _ hlen
      simp only [List.get_eq_getElem, hgete] at hfacts
      obtain ⟨fReg, fOther, fBranch, fSub, fCond, fCondOnly, fKinds⟩ := hfacts
      cases hcb : parseCb data with
      | noop => exact absurd hcb hn
      | regpage rest =>
        simp only [hcb]
        split
        · split
          · exact inv_of_parts h rfl rfl rfl hii
          · exact inv_of_parts h rfl rfl rfl hii
        · exact inv_of_parts h rfl rfl rfl hii
      | reg rest =>
        simp only [hcb]
        split
        · rename_i hk
          split
          · exact inv_of_parts h rfl rfl rfl hii
          · rename_i r hfr
            split
            · exact inv_of_parts h rfl rfl rfl hii
            · rename_i m ham
              apply inv_send
              refine inv_record_state hOk hsq hns h hii rfl (Nat.le_succ _) ?_ ?_
              · intro k hks hkq
                have hk1 : k ≠ "region_city_id" := by
                  rcases hks with h' | h' | h' <;> rw [h'] <;> decide
                simp only [ansMap, ham, Option.getD_some]
                rw [getA_set_ne _ _ _ _ hkq, getA_set_ne _ _ _ _ hk1]
              · exact fun w hw => h.2 w hw
        · exact inv_of_parts h rfl rfl rfl hii
      | ans3 qid idxText =>
        simp only [hcb]
        split
        · split
          · exact inv_of_parts h rfl rfl rfl hii
          · split
            · split
              · exact inv_handleChoice _ hOk hsq rfl hns hudS
              · exact inv_of_parts h rfl rfl rfl hii
            · exact inv_of_parts h rfl rfl rfl hii
        · exact inv_of_parts h rfl rfl rfl hii
      | ans2 a =>
        simp only [hcb]
        split
        · exact inv_handleChoice _ hOk hsq rfl hns hudS
        · exact inv_of_parts h rfl rfl rfl hii
      | mul qid opt =>
        simp only [hcb]
        split
        · split
          · exact inv_of_parts h rfl rfl rfl hii
          · exact inv_of_parts h rfl rfl rfl hii
        · exact inv_of_parts h rfl rfl rfl hii
      | mulShort raw =>
        simp only [hcb]
        split
        · exact inv_of_parts h rfl rfl rfl hii
        · exact inv_of_parts h rfl rfl rfl hii
      | mulDone qid2 =>
        simp only [hcb]
        split
        · rename_i hk
          split
          · exact inv_of_parts h rfl rfl rfl hii
          · split
            · exact inv_of_parts h rfl rfl rfl hii
            · rename_i m ham
              split
              · rename_i hho
                refine inv_record_state hOk hsq hns h hii rfl (Nat.le_refl _) ?_ ?_
                · intro k hks hkq
                  simp only [ansMap, ham, Option.getD_some]
                  exact getA_set_ne _ _ _ _ hkq
                · intro w hw
                  have hwq : q.id = w := Option.some.inj hw
                  rw [← hwq]
                  exact fOther hho.1
              · apply inv_send
                refine inv_record_state hOk hsq hns h hii rfl (Nat.le_succ _) ?_ ?_
                · intro k hks hkq
                  simp only [ansMap, ham, Option.getD_some]
                  exact getA_set_ne _ _ _ _ hkq
                · exact fun w hw => h.2 w hw
        · exact inv_of_parts h rfl rfl rfl hii
      | unknown raw =>
        simp only [hcb]
        exact inv_of_parts h rfl rfl rfl hii

theorem handleTextAnswer_none {q : Question} (msg : String)
    (h1 : q.kind ≠ QKind.text) (h2 : q.kind ≠ QKind.number)
    (h3 : q.kind ≠ QKind.percent) : handleTextAnswer q msg = none := by
  cases hk : q.kind <;> simp only [handleTextAnswer, hk] <;>
    first
      | rfl
      | exact absurd hk h1
      | exact absurd hk h2
      | exact absurd hk h3

theorem inv_txt {ud : UserData} (h : SessionInv ud) (t : String) :
    SessionInv (on_text ud t).1 := by
  have hOk := surveyOk_get ud
  rw [on_text]
  simp only [on_text_in]
  cases hw : ud.waiting_other_for with
  | some w =>
    simp only [hw]
    have hcw : w = "company_name" := h.2 w hw
    split
    · exact h
    · split
      · exact h
      · rename_i m ham
        have hmm : ansMap ud = m := by simp only [ansMap, ham, Option.getD_some]
        apply inv_send
        refine ⟨?_, fun w' hw' => Option.noConfusion hw'⟩
        intro hant
        have hne : ∀ k, k ≠ w →
            getA (setA m w (Ans.l
              ((match getA m w with
                | some (Ans.l xs) => xs
                | _ => []).map (fun item =>
                  if pyLowerStr item ∈ otherLabels then pyStrip t else item)))) k
              = getA (ansMap ud) k :=
          fun k hk => (getA_set_ne _ _ _ _ hk).trans (by rw [hmm])
        simp only [ansMap, Option.getD_some] at hant
        rw [hne _ (by rw [hcw]; decide), hne _ (by rw [hcw]; decide)] at hant
        rcases h.1 hant with ⟨hyes, h32⟩
        simp only [ansMap, Option.getD_some]
        rw [hne _ (by rw [hcw]; decide)]
        exact ⟨hyes, Nat.le_trans h32 (Nat.le_succ _)⟩
  | none =>
    simp only [hw]
    have hii : ud.q_index ≤ skipTo (get_survey ud) ud.lang (ansMap ud) ud.q_index :=
      le_skipTo _ _ _ _
    cases hsq : (get_survey ud)[skipTo (get_survey ud) ud.lang (ansMap ud) ud.q_index]? with
    | none =>
      simp only [hsq]
      exact inv_empty
    | some q =>
      simp only [hsq]
      rcases List.getElem?_eq_some.mp hsq with ⟨hlen, hgete⟩
      have hfacts := hOk _ hlen
      simp only [List.get_eq_getElem, hgete] at hfacts
      obtain ⟨fReg, fOther, fBranch, fSub, fCond, fCondOnly, fKinds⟩ := hfacts
      simp only [handleTextAnswer_none (pyStrip t) fKinds.1 fKinds.2.1 fKinds.2.2]
      exact inv_of_parts h rfl rfl hw.symm hii

/-- Every reachable session state satisfies the conditional-question
invariant. -/
theorem reach_inv {ud : UserData} (h : Reachable ud) : SessionInv ud := by
  induction h with
  | init l =>
    constructor
    · intro hant
      rcases hant with hh | hh <;> simp [ansMap, getA, pyDictGet] at hh
    · intro w hw
      simp at hw
  | goS ts uid un _ ih => exact inv_go ih ts uid un
  | cbStep data _ ih => exact inv_cb ih data
  | txtStep t _ ih => exact inv_txt ih t

/- ----------------------------------------------------------------
   Claims
   ---------------------------------------------------------------- -/

theorem normalize_eq_self_of {s : Finset Nat} {opts : List String}
    (h : ∀ x ∈ s, x < opts.length) :
    normalize_multi_selection s opts = s :=
  Finset.filter_true_of_mem h

/-- C7: for a multi-select buffer that is a valid selection set (only in-range
option indices, within the cap) and any in-range option index, applying the
handler's toggle action (normalize, then `toggleMulti`) twice with that index
returns the buffer to exactly its prior state — including at the cap with an
unselected index. -/
theorem c7_toggle_involution (opts : List String) (cap : Nat) (sel : Finset Nat)
    (opt : String) (idx : Nat)
    (hd : pyParseNatStr opt = some idx)
    (hvalid : ∀ x ∈ sel, x < opts.length)
    (hidx : idx < opts.length)
    (hcard : sel.card ≤ cap) :
    toggleMulti opts cap (normalize_multi_selection
      (toggleMulti opts cap (normalize_multi_selection sel opts) opt) opts) opt
      = sel := by
  rw [normalize_eq_self_of hvalid]
  by_cases hin : idx ∈ sel
  · have h1 : toggleMulti opts cap sel opt = sel.erase idx := by
      simp only [toggleMulti, hd]
      rw [if_pos hin]
    rw [h1, normalize_eq_self_of (fun x hx => hvalid x (Finset.mem_of_mem_erase hx))]
    have hnotin : idx ∉ sel.erase idx := Finset.not_mem_erase idx sel
    have hcard1 : (sel.erase idx).card < cap := by
      have h2 := Finset.card_erase_of_mem hin
      have h3 : 1 ≤ sel.card := Finset.card_pos.mpr ⟨idx, hin⟩
      omega
    simp only [toggleMulti, hd]
    rw [if_neg hnotin, if_pos hcard1]
    exact Finset.insert_erase hin
  · by_cases hlt : sel.card < cap
    · have h1 : toggleMulti opts cap sel opt = insert idx sel := by
        simp only [toggleMulti, hd]
        rw [if_neg hin, if_pos hlt]
      rw [h1, normalize_eq_self_of (fun x hx => by
        rcases Finset.mem_insert.mp hx with hx1 | hx2
        · rw [hx1]; exact hidx
        · exact hvalid x hx2)]
      simp only [toggleMulti, hd]
      rw [if_pos (Finset.mem_insert_self idx sel)]
      exact Finset.erase_insert hin
    · have h1 : toggleMulti opts cap sel opt = sel := by
        simp only [toggleMulti, hd]
        rw [if_neg hin, if_neg hlt]
      rw [h1, normalize_eq_self_of hvalid]
      simp only [toggleMulti, hd]
      rw [if_neg hin, if_neg hlt]

/-- Witness for C7 on the `company_name` option list: buffer `{10}` (the
"Boshqa" escape option), toggling index 10 twice. -/
theorem c7_witness :
    pyParseNatStr "10" = some 10 ∧
    toggleMulti (getOpts ((build_survey "yes").getD 10 Q_EVER_USED).options Lang.uz) 11
      (normalize_multi_selection
        (toggleMulti (getOpts ((build_survey "yes").getD 10 Q_EVER_USED).options Lang.uz) 11
          (normalize_multi_selection ({10} : Finset Nat)
            (getOpts ((build_survey "yes").getD 10 Q_EVER_USED).options Lang.uz)) "10")
        (getOpts ((build_survey "yes").getD 10 Q_EVER_USED).options Lang.uz)) "10"
      = ({10} : Finset Nat) :=
  ⟨by decide,
    c7_toggle_involution _ 11 _ "10" 10 (by decide) (by decide) (by decide) (by decide)⟩

/-- A percent-kind question as permitted by the data model: the deployed
graphs contain no percent node (Q13 became a fixed-range choice), so this is
the generic probe instance the `on_text` percent branch would serve. -/
def percentProbe : Question :=
  { id := "percent_probe", kind := QKind.percent,
    min := some 40, max := some 60 }

/-- C8: percent-kind text input is accepted exactly when the space-stripped
input is a non-empty digit string whose value is at most 100, the accepted
value is recorded as the parsed integer, and the per-question `min`/`max`
configuration is ignored (the right-hand side mentions no field of `q`);
consequently "-1", "101", "abc" and "" are rejected while "0" and "100" are
accepted. -/
theorem c8_percent_validation (q : Question) (h : q.kind = QKind.percent) :
    (∀ msg, handleTextAnswer q msg =
      match normalize_number msg with
      | some n => if n ≤ 100 then some (Ans.n (n : Int)) else none
      | none => none)
    ∧ handleTextAnswer q "-1" = none
    ∧ handleTextAnswer q "101" = none
    ∧ handleTextAnswer q "abc" = none
    ∧ handleTextAnswer q "" = none
    ∧ handleTextAnswer q "0" = some (Ans.n 0)
    ∧ handleTextAnswer q "100" = some (Ans.n 100) := by
  have hmain : ∀ msg, handleTextAnswer q msg =
      match normalize_number msg with
      | some n => if n ≤ 100 then some (Ans.n (n : Int)) else none
      | none => none := by
    intro msg
    simp only [handleTextAnswer, h]
    cases hn : normalize_number msg with
    | none => rfl
    | some n =>
      show (if (n : Int) < 0 ∨ 100 < (n : Int) then none else some (Ans.n (n : Int)))
        = (if n ≤ 100 then some (Ans.n (n : Int)) else none)
      by_cases hle : n ≤ 100
      · rw [if_neg (by rintro (hc | hc) <;> omega), if_pos hle]
      · rw [if_pos (by right; exact_mod_cast by omega), if_neg hle]
  exact ⟨hmain, (hmain _).trans (by decide), (hmain _).trans (by decide),
    (hmain _).trans (by decide), (hmain _).trans (by decide),
    (hmain _).trans (by decide), (hmain _).trans (by decide)⟩

/-- Witness for C8 at the probe percent question: its `min`/`max` of 40/60 is
ignored, "101" is rejected and "0" is accepted. -/
theorem c8_witness :
    percentProbe.kind = QKind.percent ∧
    handleTextAnswer percentProbe "101" = none ∧
    handleTextAnswer percentProbe "0" = some (Ans.n 0) :=
  ⟨by decide, (c8_percent_validation percentProbe (by decide)).2.2.1,
    (c8_percent_validation percentProbe (by decide)).2.2.2.2.2.1⟩

/-- C10: the region keyboard builder clamps every requested page index —
including negative ones and ones past the last page — into `[0, max_page - 1]`
(`max_page = 2` for the fixed 14-entry region list with page size 8), its
slice start stays strictly inside the region list, and the rendered page of
region buttons is never empty. -/
theorem c10_kb_regions_clamp (lang : Lang) (page : Int) :
    0 ≤ (kb_regions lang page 8).page ∧
    (kb_regions lang page 8).page ≤ 1 ∧
    (kb_regions lang page 8).max_page = 2 ∧
    (kb_regions lang page 8).page.toNat * 8 < UZB_REGIONS.length ∧
    (kb_regions lang page 8).buttons ≠ [] := by
  have h1 : (((UZB_REGIONS.length + 8 - 1) / 8 : Nat) : Int) - 1 = 1 := by decide
  simp only [kb_regions]
  rw [if_neg (show ¬(UZB_REGIONS.length = 0) by decide), h1]
  rcases le_or_lt page 0 with hp | hp
  · have hcl : max 0 (min page 1) = 0 :=
      max_eq_left (le_trans (min_le_left _ _) hp)
    rw [hcl]
    refine ⟨le_refl 0, zero_le_one,
      (by decide : ((UZB_REGIONS.length + 8 - 1) / 8) = 2),
      (by decide : (Int.toNat 0) * 8 < UZB_REGIONS.length), ?_⟩
    cases lang <;> decide
  · have hmin : min page 1 = 1 := min_eq_right (by omega)
    have hcl : max 0 (min page 1) = 1 := by
      rw [hmin]
      exact max_eq_right (by omega)
    rw [hcl]
    refine ⟨zero_le_one, le_refl 1,
      (by decide : ((UZB_REGIONS.length + 8 - 1) / 8) = 2),
      (by decide : (Int.toNat 1) * 8 < UZB_REGIONS.length), ?_⟩
    cases lang <;> decide

theorem toggle_card_le (opts : List String) (cap : Nat) (s : Finset Nat)
    (o : String) (h : s.card ≤ cap) :
    (toggleMulti opts cap (normalize_multi_selection s opts) o).card ≤ cap := by
  have hn : (normalize_multi_selection s opts).card ≤ s.card :=
    Finset.card_filter_le _ _
  cases hp : pyParseNatStr o with
  | some idx =>
    simp only [toggleMulti, hp]
    by_cases hin : idx ∈ normalize_multi_selection s opts
    · rw [if_pos hin]
      exact le_trans (le_trans (Finset.card_erase_le) hn) h
    · rw [if_neg hin]
      by_cases hlt : (normalize_multi_selection s opts).card < cap
      · rw [if_pos hlt]
        exact le_trans (Finset.card_insert_le idx _) (by omega)
      · rw [if_neg hlt]
        omega
  | none =>
    simp only [toggleMulti, hp]
    by_cases hmem : o ∈ opts
    · rw [if_pos hmem]
      by_cases hin : pyIndexOf opts o ∈ normalize_multi_selection s opts
      · rw [if_pos hin]
        exact le_trans (le_trans (Finset.card_erase_le) hn) h
      · rw [if_neg hin]
        by_cases hlt : (normalize_multi_selection s opts).card < cap
        · rw [if_pos hlt]
          exact le_trans (Finset.card_insert_le _ _) (by omega)
        · rw [if_neg hlt]
          omega
    · rw [if_neg hmem]
      omega

theorem toggle_fold_card_le (opts : List String) (cap : Nat) :
    ∀ (toggles : List String) (s : Finset Nat), s.card ≤ cap →
      ((toggles.foldl (fun s o =>
        toggleMulti opts cap (normalize_multi_selection s opts) o) s).card ≤ cap) := by
  intro toggles
  induction toggles with
  | nil =>
    intro s h
    simpa using h
  | cons o rest ih =>
    intro s h
    simp only [List.foldl_cons]
    exact ih _ (toggle_card_le opts cap s o h)

/-- C6: toggling an index not in the (valid) transient buffer while the buffer
is at the question's cap is silently ignored — the handler answers with the
re-rendered keyboard (no invalid signal), rewrites the stored buffer with the
very same selection set, and touches no other session field; and the buffer of
any toggle sequence started from the empty buffer never exceeds the cap. -/
theorem c6_cap_soft_limit (survey : List Question) (ud : UserData) (q : Question)
    (dataD opt : String) (idx : Nat)
    (hq : survey[ud.q_index]? = some q) (hkind : q.kind = QKind.multi)
    (hskipc : should_skip_conditional q (ansMap ud) ud.lang = false)
    (hp : parseCb dataD = CbData.mul q.id opt)
    (hd : pyParseNatStr opt = some idx)
    (hsel : ∀ x ∈ getBuf ud.multiBuf q.id, x < (getOpts q.options ud.lang).length)
    (hnotin : idx ∉ getBuf ud.multiBuf q.id)
    (hcap : (getBuf ud.multiBuf q.id).card = q.max_select.getD 7) :
    (on_callback_in survey ud dataD =
      ({ ud with multiBuf := setBuf ud.multiBuf q.id (getBuf ud.multiBuf q.id) },
        [Emit.multiMarkup q.id], ConvRet.flow))
    ∧ (∀ k, getBuf (setBuf ud.multiBuf q.id (getBuf ud.multiBuf q.id)) k
        = getBuf ud.multiBuf k)
    ∧ (∀ (opts : List String) (cap : Nat) (toggles : List String),
        (toggles.foldl (fun s o =>
          toggleMulti opts cap (normalize_multi_selection s opts) o) ∅).card ≤ cap) := by
  refine ⟨?_, ?_, ?_⟩
  · have hsect : ¬(q.kind = QKind.sect ∨
        should_skip_conditional q (ansMap ud) ud.lang = true) := by
      rintro (hc | hc)
      · rw [hkind] at hc
        exact QKind.noConfusion hc
      · rw [hskipc] at hc
        exact Bool.noConfusion hc
    have hid := skipTo_id survey ud.lang (ansMap ud) ud.q_index q hq hsect
    have hnn : parseCb dataD ≠ CbData.noop := by
      rw [hp]
      exact fun hh => CbData.noConfusion hh
    have hN : normalize_multi_selection (getBuf ud.multiBuf q.id)
        (getOpts q.options ud.lang) = getBuf ud.multiBuf q.id :=
      normalize_eq_self_of hsel
    have htog : toggleMulti (getOpts q.options ud.lang) (q.max_select.getD 7)
        (getBuf ud.multiBuf q.id) opt = getBuf ud.multiBuf q.id := by
      simp only [toggleMulti, hd]
      rw [if_neg hnotin, if_neg (by omega)]
    simp only [on_callback_in, if_neg hnn, hid, hq, hp]
    rw [if_pos hkind, if_neg (show ¬(q.id ≠ q.id) from fun hh => hh rfl), hN, htog,
      if_neg (show ¬(CbData.mul q.id opt = CbData.noop) from
        fun hh => CbData.noConfusion hh)]
  · intro k
    by_cases hk : k = q.id
    · rw [hk, getBuf_set_self]
    · rw [getBuf_set_ne _ _ _ _ hk]
  · intro opts cap toggles
    exact toggle_fold_card_le opts cap toggles ∅ (by simp)

/-- A minimal multi-select probe question (cap 2, three options) for the C6
witness: the deployed multi questions all have a cap equal to their option
count, so a full valid buffer plus a fresh in-range index needs a cap below
the option count. -/
def multiProbe : Question :=
  { id := "multi_probe", kind := QKind.multi,
    options := { uz := ["a", "b", "c"], ru := ["a", "b", "c"], en := ["a", "b", "c"] },
    max_select := some 2 }

/-- The C6 witness session: positioned at the probe question with a full
valid buffer. -/
def c6ud : UserData :=
  { lang := Lang.uz, q_index := 0,
    multiBuf := [("multi_probe", ({0, 1} : Finset Nat))] }

/-- Witness for C6: buffer `{0, 1}` at cap 2, toggling index 2; plus the cap
bound for a concrete toggle sequence. -/
theorem c6_witness :
    (on_callback_in [multiProbe] c6ud "mul:multi_probe:2" =
      ({ c6ud with
          multiBuf := setBuf c6ud.multiBuf multiProbe.id
            (getBuf c6ud.multiBuf multiProbe.id) },
        [Emit.multiMarkup multiProbe.id], ConvRet.flow))
    ∧ getBuf (setBuf c6ud.multiBuf multiProbe.id
        (getBuf c6ud.multiBuf multiProbe.id)) "multi_probe"
      = getBuf c6ud.multiBuf "multi_probe"
    ∧ ((["0", "1", "2", "0"].foldl (fun s o =>
        toggleMulti ["a", "b", "c"] 2 (normalize_multi_selection s ["a", "b", "c"]) o)
        ∅).card ≤ 2) :=
  have H := c6_cap_soft_limit [multiProbe] c6ud multiProbe "mul:multi_probe:2" "2" 2
    (by decide) (by decide) (by decide) (by decide) (by decide) (by decide)
    (by decide) (by decide)
  ⟨H.1, H.2.1 "multi_probe", H.2.2 ["a", "b", "c"] 2 ["0", "1", "2", "0"]⟩

/-- C3 (amended): once the position pointer is at or past the end of the
effective graph, the engine invokes the completion routine exactly once — one
`saved` dispatch — and immediately clears the session; the handlers reaching
this position behave the same way.  There is no persistent `Completed`
state: the cleared session is a fresh default session (see the
counterexample for the original claim's no-op part). -/
theorem c3_completion_once_and_clear (ud : UserData)
    (h : (get_survey ud).length ≤ ud.q_index) :
    (send_question ud = (({} : UserData), [Emit.saved]))
    ∧ ((send_question ud).2.count Emit.saved = 1)
    ∧ (∀ data, parseCb data ≠ CbData.noop →
        on_callback ud data = (({} : UserData), [Emit.saved], ConvRet.stop))
    ∧ (∀ t, ud.waiting_other_for = none →
        on_text ud t = (({} : UserData), [Emit.saved], ConvRet.stop)) := by
  have hskip := skipTo_oob (get_survey ud) ud.lang (ansMap ud) ud.q_index h
  have hnone : (get_survey ud)[ud.q_index]? = none := List.getElem?_eq_none h
  refine ⟨send_question_at_end ud h, ?_, ?_, ?_⟩
  · rw [send_question_at_end ud h]
    decide
  · intro data hd
    rw [on_callback]
    simp only [on_callback_in, if_neg hd, hskip, hnone, finalizeF]
  · intro t hw
    rw [on_text]
    simp only [on_text_in, hw, hskip, hnone, finalizeF]

/-- Witness for C3 (amended) at a concrete finished session: position 37 at
the end of the 37-node user-branch graph, with a concrete follow-up callback
and text message. -/
theorem c3_witness :
    (send_question
        ({ lang := Lang.uz, branch := some "yes", q_index := 37 } : UserData)
      = (({} : UserData), [Emit.saved]))
    ∧ ((send_question
        ({ lang := Lang.uz, branch := some "yes", q_index := 37 } : UserData)).2.count
          Emit.saved = 1)
    ∧ on_callback ({ lang := Lang.uz, branch := some "yes", q_index := 37 } : UserData)
        "reg:tk" = (({} : UserData), [Emit.saved], ConvRet.stop)
    ∧ on_text ({ lang := Lang.uz, branch := some "yes", q_index := 37 } : UserData)
        "hello" = (({} : UserData), [Emit.saved], ConvRet.stop) :=
  have H := c3_completion_once_and_clear
    ({ lang := Lang.uz, branch := some "yes", q_index := 37 } : UserData) (by decide)
  ⟨H.1, H.2.1, H.2.2.1 "reg:tk" (by decide), H.2.2.2 "hello" rfl⟩

/-- C3 (counterexample to the original claim): after completion the session is
cleared — exactly the all-default state, with the `"answers"` key absent —
and the conversation stays in `SURVEY_FLOW` when the final answer triggered
completion, so a subsequent respondent action is NOT a no-op: on a
region-selection callback the skip loop first stores the advanced position
pointer (a top-level `ctx.user_data` write, which succeeds after `clear()`),
and the handler then aborts with `KeyError` at the answers-item assignment,
recording nothing — the session is left mutated (`q_index` moved from 0 to
1), not unchanged. -/
theorem c3_counterexample :
    on_callback ({} : UserData) "reg:tk"
      = (({ q_index := 1 } : UserData), [Emit.pyError], ConvRet.flow)
    ∧ (on_callback ({} : UserData) "reg:tk").1 ≠ ({} : UserData)
    ∧ (on_callback ({} : UserData) "reg:tk").1.answers = none := by
  decide

theorem send_question_branch (ud : UserData) :
    (send_question ud).1.branch = ud.branch
    ∨ (send_question ud).1 = ({} : UserData) := by
  rcases send_question_cases ud with hc | ⟨j, hj, hc⟩
  · exact Or.inr hc
  · rw [hc]
    exact Or.inl rfl

/-- The branch tag after the single-choice recording tail: unchanged, or the
session was finalized and cleared, or — only when the question carries the
branch marker — set from the answer's polarity. -/
theorem handleChoice_branch (ud : UserData) (i : Nat) (q : Question)
    (ans : String) :
    (handleChoice ud i q ans).1.branch = ud.branch
    ∨ (handleChoice ud i q ans).1 = ({} : UserData)
    ∨ (q.is_branch_question = true ∧ (handleChoice ud i q ans).1.branch
        = some (if is_no_answer ans ud.lang then "no" else "yes")) := by
  simp only [handleChoice]
  cases ham : ud.answers with
  | none =>
    simp only [ham]
    exact Or.inl trivial
  | some m =>
    simp only [ham]
    cases hb : q.is_branch_question with
    | true =>
      simp only [hb, if_true]
      cases hfi : (build_survey (if is_no_answer ans ud.lang then "no" else "yes")).findIdx?
          (fun sq => sq.id = "ever_used") with
      | none =>
        simp only [hfi]
        rcases send_question_branch _ with hbr | hclr
        · exact Or.inr (Or.inr ⟨trivial, hbr⟩)
        · exact Or.inr (Or.inl hclr)
      | some j =>
        simp only [hfi]
        rcases send_question_branch _ with hbr | hclr
        · exact Or.inr (Or.inr ⟨trivial, hbr⟩)
        · exact Or.inr (Or.inl hclr)
    | false =>
      simp only [hb, Bool.false_eq_true, if_false]
      rcases send_question_branch _ with hbr | hclr
      · exact Or.inl hbr
      · exact Or.inr (Or.inl hclr)

/-- Branch-tag stability of `on_callback`: the tag is preserved, or the
session was finalized and cleared, or the skip-resolved current question is
the branch marker (`ever_used`) and the tag was set from an accepted
answer's polarity. -/
theorem on_callback_branch (ud : UserData) (data : String) :
    (on_callback ud data).1.branch = ud.branch
    ∨ (on_callback ud data).1 = ({} : UserData)
    ∨ (∃ q ans,
        (get_survey ud)[skipTo (get_survey ud) ud.lang (ansMap ud) ud.q_index]?
          = some q
        ∧ q.is_branch_question = true ∧ q.id = "ever_used"
        ∧ (on_callback ud data).1.branch
          = some (if is_no_answer ans ud.lang then "no" else "yes")) := by
  have hOk := surveyOk_get ud
  rw [on_callback]
  simp only [on_callback_in]
  by_cases hn : parseCb data = CbData.noop
  · simp only [if_pos hn]
    exact Or.inl trivial
  · simp only [if_neg hn]
    cases hsq : (get_survey ud)[skipTo (get_survey ud) ud.lang (ansMap ud) ud.q_index]? with
    | none =>
      simp only [hsq]
      exact Or.inr (Or.inl rfl)
    | some q =>
      simp only [hsq]
      rcases List.getElem?_eq_some.mp hsq with ⟨hlen, hgete⟩
      have hfacts := hOk _ hlen
      simp only [List.get_eq_getElem, hgete] at hfacts
      obtain ⟨fReg, fOther, fBranch, fSub, fCond, fCondOnly, fKinds⟩ := hfacts
      cases hcb : parseCb data with
      | noop => exact absurd hcb hn
      | regpage rest =>
        simp only [hcb]
        split
        · split
          · exact Or.inl rfl
          · exact Or.inl rfl
        · exact Or.inl rfl
      | reg rest =>
        simp only [hcb]
        split
        · split
          · exact Or.inl rfl
          · split
            · exact Or.inl rfl
            · rcases send_question_branch _ with hbr | hclr
              · exact Or.inl hbr
              · exact Or.inr (Or.inl hclr)
        · exact Or.inl rfl
      | ans3 qid idxText =>
        simp only [hcb]
        split
        · split
          · exact Or.inl rfl
          · split
            · split
              · rcases handleChoice_branch _ _ _ _ with hbr | hclr | ⟨hbq, hset⟩
                · exact Or.inl hbr
                · exact Or.inr (Or.inl hclr)
                · exact Or.inr (Or.inr ⟨q, _, rfl, hbq, (fBranch hbq).2, hset⟩)
              · exact Or.inl rfl
            · exact Or.inl rfl
        · exact Or.inl rfl
      | ans2 a =>
        simp only [hcb]
        split
        · rcases handleChoice_branch _ _ _ _ with hbr | hclr | ⟨hbq, hset⟩
          · exact Or.inl hbr
          · exact Or.inr (Or.inl hclr)
          · exact Or.inr (Or.inr ⟨q, a, rfl, hbq, (fBranch hbq).2, hset⟩)
        · exact Or.inl rfl
      | mul qid opt =>
        simp only [hcb]
        split
        · split
          · exact Or.inl rfl
          · exact Or.inl rfl
        · exact Or.inl rfl
      | mulShort raw =>
        simp only [hcb]
        split
        · exact Or.inl rfl
        · exact Or.inl rfl
      | mulDone qid2 =>
        simp only [hcb]
        split
        · split
          · exact Or.inl rfl
          · split
            · exact Or.inl rfl
            · split
              · exact Or.inl rfl
              · rcases send_question_branch _ with hbr | hclr
                · exact Or.inl hbr
                · exact Or.inr (Or.inl hclr)
        · exact Or.inl rfl
      | unknown raw =>
        simp only [hcb]
        exact Or.inl trivial

/-- Branch-tag stability of `on_text`: no text path ever writes the tag — it
is preserved unless the session was finalized and cleared. -/
theorem on_text_branch (ud : UserData) (t : String) :
    (on_text ud t).1.branch = ud.branch
    ∨ (on_text ud t).1 = ({} : UserData) := by
  rw [on_text]
  simp only [on_text_in]
  cases hw : ud.waiting_other_for with
  | some w =>
    simp only [hw]
    split
    · exact Or.inl rfl
    · split
      · exact Or.inl rfl
      · rcases send_question_branch _ with hbr | hclr
        · exact Or.inl hbr
        · exact Or.inr hclr
  | none =>
    simp only [hw]
    cases hsq : (get_survey ud)[skipTo (get_survey ud) ud.lang (ansMap ud) ud.q_index]? with
    | none =>
      simp only [hsq]
      exact Or.inr rfl
    | some q =>
      simp only [hsq]
      cases hta : handleTextAnswer q (pyStrip t) with
      | none =>
        simp only [hta]
        exact Or.inl trivial
      | some a =>
        simp only [hta]
        split
        · exact Or.inl rfl
        · rcases send_question_branch _ with hbr | hclr
          · exact Or.inl hbr
          · exact Or.inr hclr

/-- C9 (amended): session creation (`on_go_start`) eagerly initializes the
branch tag to the default `"yes"` — the user-branch effective graph is bound
from the start — and even with the tag absent `get_survey` already resolves
to the `"yes"` graph.  Thereafter, within the `SURVEY_FLOW` handlers, the
tag is only overwritten when the skip-resolved current question is the
branch marker `ever_used` and a single-choice answer for it is accepted (the
tag is then the answer's polarity), or by the session being finalized and
cleared; no text path writes the tag. -/
theorem c9_branch_default (ud : UserData) (ts uid un : String) :
    (on_go_start ud ts uid un).1.branch = some "yes"
    ∧ get_survey (on_go_start ud ts uid un).1 = build_survey "yes"
    ∧ get_survey ({} : UserData) = build_survey "yes"
    ∧ (∀ (ud2 : UserData) (data : String),
        (on_callback ud2 data).1.branch = ud2.branch
        ∨ (on_callback ud2 data).1 = ({} : UserData)
        ∨ (∃ q ans,
            (get_survey ud2)[skipTo (get_survey ud2) ud2.lang (ansMap ud2)
              ud2.q_index]? = some q
            ∧ q.is_branch_question = true ∧ q.id = "ever_used"
            ∧ (on_callback ud2 data).1.branch
              = some (if is_no_answer ans ud2.lang then "no" else "yes")))
    ∧ (∀ (ud2 : UserData) (t : String),
        (on_text ud2 t).1.branch = ud2.branch
        ∨ (on_text ud2 t).1 = ({} : UserData)) :=
  ⟨rfl, rfl, rfl, fun ud2 data => on_callback_branch ud2 data,
    fun ud2 t => on_text_branch ud2 t⟩

/-- C9 (counterexample to the original claim): immediately after session
creation — before any answer, in particular before `ever_used` is answered —
the session's branch tag is already set (to the default `"yes"`), not unset,
and the `"yes"`-branch effective graph is bound to the session. -/
theorem c9_counterexample :
    getA (ansMap (on_go_start ({ lang := Lang.uz } : UserData) "t" "1" "u").1)
        "ever_used" = none
    ∧ (on_go_start ({ lang := Lang.uz } : UserData) "t" "1" "u").1.branch
        = some "yes"
    ∧ (on_go_start ({ lang := Lang.uz } : UserData) "t" "1" "u").1.branch ≠ none
    ∧ get_survey (on_go_start ({ lang := Lang.uz } : UserData) "t" "1" "u").1
        = build_survey "yes" := by
  refine ⟨by decide, rfl, by decide, rfl⟩

/-- The invalid respondent inputs enumerated by the failure-semantics
contract, at a session whose position pointer rests on an answerable node:
a single-choice callback for the current question whose option index is
malformed (not a digit string) or out of range; empty (whitespace-only) free
text while a pending "other" override is awaited; and rejected numeric text
(non-digit or out-of-bounds) at a number/percent question. -/
def InvalidInput (survey : List Question) (ud : UserData) (a : Act) : Prop :=
  ∃ q, survey[ud.q_index]? = some q ∧ q.kind ≠ QKind.sect ∧
    should_skip_conditional q (ansMap ud) ud.lang = false ∧
    ((∃ data idxText, a = Act.cb data ∧ q.kind = QKind.choice ∧
        parseCb data = CbData.ans3 q.id idxText ∧
        (pyParseNatStr idxText = none ∨
          ∃ n, pyParseNatStr idxText = some n ∧
            (getOpts q.options ud.lang).length ≤ n))
      ∨ (∃ w t, ud.waiting_other_for = some w ∧ a = Act.msg t ∧ pyStrip t = "")
      ∨ (∃ t, ud.waiting_other_for = none ∧ a = Act.msg t ∧
          (q.kind = QKind.number ∨ q.kind = QKind.percent) ∧
          handleTextAnswer q (pyStrip t) = none))

/-- C1: every enumerated invalid input at an answerable node makes the
handler emit exactly the `invalid` signal and return the session completely
unchanged — in particular with the same position pointer, branch tag and
recorded answers map. -/
theorem c1_invalid_input_preserves_state (survey : List Question)
    (ud : UserData) (a : Act) (h : InvalidInput survey ud a) :
    stepIn survey ud a = (ud, [Emit.invalid], ConvRet.flow) := by
  obtain ⟨q, hq, hsect, hskip, hcase⟩ := h
  have hid : skipTo survey ud.lang (ansMap ud) ud.q_index = ud.q_index :=
    skipTo_id survey ud.lang (ansMap ud) ud.q_index q hq (by
      rintro (hc | hc)
      · exact hsect hc
      · rw [hskip] at hc
        exact Bool.noConfusion hc)
  rcases hcase with ⟨data, idxText, ha, hkind, hp, hbad⟩ |
    ⟨w, t, hw, ha, ht⟩ | ⟨t, hw, ha, hnk, hrej⟩
  · subst ha
    have hnn : parseCb data ≠ CbData.noop := by
      rw [hp]
      exact fun hh => CbData.noConfusion hh
    simp only [stepIn, on_callback_in, if_neg hnn, hid, hq, hp]
    rw [if_neg (show ¬(CbData.ans3 q.id idxText = CbData.noop) from
      fun hh => CbData.noConfusion hh)]
    rw [if_pos hkind, if_neg (show ¬(q.id ≠ q.id) from fun hh => hh rfl)]
    rcases hbad with hnone | ⟨n, hn, hge⟩
    · simp only [hnone]
    · simp only [hn]
      rw [if_neg (show ¬(n < (getOpts q.options ud.lang).length) from by omega)]
  · subst ha
    simp only [stepIn, on_text_in, hw]
    rw [if_pos (by rw [ht]; decide)]
  · subst ha
    simp only [stepIn, on_text_in, hw, hid, hq, hrej]
    rw [← hw]

/-- Witness for C1: a callback answering `age_group` (position 2 of the
user-branch graph) with the out-of-range option index 99. -/
theorem c1_witness :
    stepIn (build_survey "yes")
      ({ lang := Lang.uz, branch := some "yes", q_index := 2 } : UserData)
      (Act.cb "ans:age_group:99")
      = (({ lang := Lang.uz, branch := some "yes", q_index := 2 } : UserData),
        [Emit.invalid], ConvRet.flow) :=
  c1_invalid_input_preserves_state (build_survey "yes")
    ({ lang := Lang.uz, branch := some "yes", q_index := 2 } : UserData)
    (Act.cb "ans:age_group:99")
    ⟨(build_survey "yes").getD 2 Q_EVER_USED, by decide, by decide, by decide,
      Or.inl ⟨"ans:age_group:99", "99", rfl, by decide, by decide,
        Or.inr ⟨99, by decide, by decide⟩⟩⟩

/-- C2: a valid answer to the branch-marker question `ever_used` (any option
index of its two-option list, with the session's skip-resolved position on
that question — wherever the stored pointer was) sets the branch tag from the
answer's polarity (the negative option selects `"no"`, the other `"yes"`),
rebuilds the effective graph for that tag, and repositions the pointer to
`j + 1` where `j` is the index of `ever_used` in the newly built graph,
before the normal re-presentation (which advances past non-answerable
nodes) runs. -/
theorem c2_branch_rebind (ud : UserData) (data idxText : String) (idx : Nat)
    (m : List (String × Ans))
    (hp : parseCb data = CbData.ans3 "ever_used" idxText)
    (hn : pyParseNatStr idxText = some idx) (hidx : idx < 2)
    (ham : ud.answers = some m)
    (hskip : skipTo (get_survey ud) ud.lang (ansMap ud) ud.q_index = 6) :
    ∃ tag j,
      tag = (if is_no_answer ((getOpts Q_EVER_USED.options ud.lang).getD idx "")
          ud.lang then "no" else "yes")
      ∧ (is_no_answer ((getOpts Q_EVER_USED.options ud.lang).getD idx "") ud.lang
          = decide (idx = 1))
      ∧ (build_survey tag).findIdx? (fun sq => sq.id = "ever_used") = some j
      ∧ j = 6
      ∧ on_callback ud data =
        ((send_question { ud with
            answers := some (choiceAnswers m "ever_used"
              ((getOpts Q_EVER_USED.options ud.lang).getD idx "")),
            branch := some tag, q_index := j + 1 }).1,
          (send_question { ud with
            answers := some (choiceAnswers m "ever_used"
              ((getOpts Q_EVER_USED.options ud.lang).getD idx "")),
            branch := some tag, q_index := j + 1 }).2,
          ConvRet.flow) := by
  have hq6 : (get_survey ud)[6]? = some Q_EVER_USED := by
    rw [get_survey]
    rcases build_survey_cases (ud.branch.getD "yes") with hh | hh <;> rw [hh] <;> rfl
  have hnn : parseCb data ≠ CbData.noop := by
    rw [hp]
    exact fun hh => CbData.noConfusion hh
  refine ⟨_, 6, rfl, ?_, ?_, rfl, ?_⟩
  · have h01 : idx = 0 ∨ idx = 1 := by omega
    rcases h01 with h0 | h0 <;> subst h0 <;> cases ud.lang <;> decide
  · by_cases hb : is_no_answer ((getOpts Q_EVER_USED.options ud.lang).getD idx "")
        ud.lang
    · rw [if_pos hb]
      rfl
    · rw [if_neg hb]
      rfl
  · rw [on_callback]
    simp only [on_callback_in, if_neg hnn, hskip, hq6, hp]
    rw [if_neg (show ¬(CbData.ans3 "ever_used" idxText = CbData.noop) from
      fun hh => CbData.noConfusion hh)]
    rw [if_pos (show Q_EVER_USED.kind = QKind.choice from rfl)]
    rw [if_neg (show ¬(("ever_used" : String) ≠ Q_EVER_USED.id) from
      fun hh => hh rfl)]
    simp only [hn]
    rw [if_pos (show idx < (getOpts Q_EVER_USED.options ud.lang).length from by
      cases ud.lang <;> simpa using hidx)]
    simp only [handleChoice, ham]
    rw [if_pos (show Q_EVER_USED.is_branch_question = true from rfl)]
    by_cases hb : is_no_answer ((getOpts Q_EVER_USED.options ud.lang).getD idx "")
        ud.lang
    · rw [if_pos hb]
      rfl
    · rw [if_neg hb]
      rfl

/-- The C2 witness session: English interface, pointer on the branch
question. -/
def c2ud : UserData :=
  { lang := Lang.en, branch := some "yes", q_index := 6, answers := some [] }

/-- Witness for C2: answering `ever_used` with option index 1 ("No") from the
default graph sets the `"no"` tag and repositions the pointer to just after
`ever_used` (index 6) of the rebuilt "no" graph. -/
theorem c2_witness :
    (is_no_answer ((getOpts Q_EVER_USED.options Lang.en).getD 1 "") Lang.en
        = decide ((1 : Nat) = 1))
    ∧ (build_survey "no").findIdx? (fun sq => sq.id = "ever_used") = some 6
    ∧ on_callback c2ud "ans:ever_used:1" =
        ((send_question { c2ud with
            answers := some (choiceAnswers [] "ever_used"
              ((getOpts Q_EVER_USED.options Lang.en).getD 1 "")),
            branch := some "no", q_index := 6 + 1 }).1,
          (send_question { c2ud with
            answers := some (choiceAnswers [] "ever_used"
              ((getOpts Q_EVER_USED.options Lang.en).getD 1 "")),
            branch := some "no", q_index := 6 + 1 }).2,
          ConvRet.flow) := by
  obtain ⟨tag, j, htag, hpol, hfind, hj, heq⟩ :=
    c2_branch_rebind c2ud "ans:ever_used:1" "1" 1 [] (by decide) (by decide)
      (by decide) (by decide) (by decide)
  subst hj
  have htag2 : tag = "no" := by
    rw [htag]
    decide
  subst htag2
  exact ⟨hpol, hfind, heq⟩

/-- C4: confirming a multi-select question that carries the "other" escape
flag with a selection whose label list contains an "other" marker
(case-insensitively, over the marker spellings of all three languages)
records the label list, leaves the position pointer unchanged, and enters the
pending-override sub-state; one piece of non-empty free text then replaces
every "other" marker label in the already-recorded list in place (the list
length is preserved — nothing is appended), clears the pending marker, and
advances the position by one node before the normal re-presentation runs. -/
theorem c4_other_override (survey : List Question) (ud : UserData) (q : Question)
    (dataD : String) (m : List (String × Ans))
    (hq : survey[ud.q_index]? = some q) (hkind : q.kind = QKind.multi)
    (hother : q.has_other = true)
    (ham : ud.answers = some m)
    (hskipc : should_skip_conditional q (ansMap ud) ud.lang = false)
    (hp : parseCb dataD = CbData.mulDone q.id)
    (hmark : (mulDoneLabels (getBuf ud.multiBuf q.id)
        (getOpts q.options ud.lang)).any
      (fun lbl => pyLowerStr lbl ∈ otherLabels) = true) :
    (on_callback_in survey ud dataD =
      ({ ud with
          answers := some (setA m q.id
            (Ans.l (mulDoneLabels (getBuf ud.multiBuf q.id)
              (getOpts q.options ud.lang)))),
          waiting_other_for := some q.id },
        [Emit.askOther], ConvRet.flow))
    ∧ (∀ t, pyStrip t ≠ "" →
        (on_text_in survey
          { ud with
            answers := some (setA m q.id
              (Ans.l (mulDoneLabels (getBuf ud.multiBuf q.id)
                (getOpts q.options ud.lang)))),
            waiting_other_for := some q.id } t =
          ((send_question { ud with
              answers := some (setA
                (setA m q.id
                  (Ans.l (mulDoneLabels (getBuf ud.multiBuf q.id)
                    (getOpts q.options ud.lang))))
                q.id
                (Ans.l ((mulDoneLabels (getBuf ud.multiBuf q.id)
                    (getOpts q.options ud.lang)).map
                  (fun item => if pyLowerStr item ∈ otherLabels then pyStrip t
                    else item)))),
              waiting_other_for := none, q_index := ud.q_index + 1 }).1,
            (send_question { ud with
              answers := some (setA
                (setA m q.id
                  (Ans.l (mulDoneLabels (getBuf ud.multiBuf q.id)
                    (getOpts q.options ud.lang))))
                q.id
                (Ans.l ((mulDoneLabels (getBuf ud.multiBuf q.id)
                    (getOpts q.options ud.lang)).map
                  (fun item => if pyLowerStr item ∈ otherLabels then pyStrip t
                    else item)))),
              waiting_other_for := none, q_index := ud.q_index + 1 }).2,
            ConvRet.flow))
        ∧ ((mulDoneLabels (getBuf ud.multiBuf q.id)
              (getOpts q.options ud.lang)).map
            (fun item => if pyLowerStr item ∈ otherLabels then pyStrip t
              else item)).length
          = (mulDoneLabels (getBuf ud.multiBuf q.id)
              (getOpts q.options ud.lang)).length) := by
  have hsect : ¬(q.kind = QKind.sect ∨
      should_skip_conditional q (ansMap ud) ud.lang = true) := by
    rintro (hc | hc)
    · rw [hkind] at hc
      exact QKind.noConfusion hc
    · rw [hskipc] at hc
      exact Bool.noConfusion hc
  have hid := skipTo_id survey ud.lang (ansMap ud) ud.q_index q hq hsect
  have hnn : parseCb dataD ≠ CbData.noop := by
    rw [hp]
    exact fun hh => CbData.noConfusion hh
  constructor
  · simp only [on_callback_in, if_neg hnn, hid, hq, hp, ham]
    rw [if_neg (show ¬(CbData.mulDone q.id = CbData.noop) from
      fun hh => CbData.noConfusion hh)]
    rw [if_pos hkind, if_neg (show ¬(q.id ≠ q.id) from fun hh => hh rfl)]
    rw [if_pos (show q.has_other = true ∧ (mulDoneLabels (getBuf ud.multiBuf q.id)
        (getOpts q.options ud.lang)).any
          (fun lbl => pyLowerStr lbl ∈ otherLabels) = true from ⟨hother, hmark⟩)]
  · intro t ht
    have hlen : ¬((pyStrip t).length < 1) := by
      intro hc
      apply ht
      have h0 : (pyStrip t).data.length = 0 := by
        have hh : (pyStrip t).length = 0 := by omega
        exact hh
      have hnil : (pyStrip t).data = [] := List.length_eq_zero.mp h0
      have he : pyStrip t = String.mk (pyStrip t).data := rfl
      rw [he, hnil]
    constructor
    · simp only [on_text_in]
      rw [if_neg hlen, getA_set_self]
    · exact List.length_map _ _

/-- The C4 witness session: pointer on `company_name` (position 10 of the
user-branch graph) with the "Boshqa" escape option (index 10) selected. -/
def c4ud : UserData :=
  { lang := Lang.uz, branch := some "yes", q_index := 10,
    answers := some [],
    multiBuf := [("company_name", ({10} : Finset Nat))] }

/-- The C4 witness question: `company_name`. -/
def c4q : Question := (build_survey "yes").getD 10 Q_EVER_USED

/-- The confirmed label list of the C4 witness (just the "Boshqa" marker). -/
def c4labels : List String :=
  mulDoneLabels (getBuf c4ud.multiBuf c4q.id) (getOpts c4q.options c4ud.lang)

/-- Witness for C4: confirming with "Boshqa" selected enters the override
sub-state without advancing, and the text "Acme Corp" replaces the marker in
place and advances by one. -/
theorem c4_witness :
    (on_callback_in (build_survey "yes") c4ud "mul_done:company_name" =
      ({ c4ud with
          answers := some (setA [] c4q.id (Ans.l c4labels)),
          waiting_other_for := some c4q.id },
        [Emit.askOther], ConvRet.flow))
    ∧ ((on_text_in (build_survey "yes")
        { c4ud with
          answers := some (setA [] c4q.id (Ans.l c4labels)),
          waiting_other_for := some c4q.id } "Acme Corp" =
        ((send_question { c4ud with
            answers := some (setA (setA [] c4q.id (Ans.l c4labels)) c4q.id
              (Ans.l (c4labels.map (fun item =>
                if pyLowerStr item ∈ otherLabels then pyStrip "Acme Corp"
                else item)))),
            waiting_other_for := none, q_index := c4ud.q_index + 1 }).1,
          (send_question { c4ud with
            answers := some (setA (setA [] c4q.id (Ans.l c4labels)) c4q.id
              (Ans.l (c4labels.map (fun item =>
                if pyLowerStr item ∈ otherLabels then pyStrip "Acme Corp"
                else item)))),
            waiting_other_for := none, q_index := c4ud.q_index + 1 }).2,
          ConvRet.flow))
      ∧ (c4labels.map (fun item =>
          if pyLowerStr item ∈ otherLabels then pyStrip "Acme Corp"
          else item)).length = c4labels.length) :=
  ⟨(c4_other_override (build_survey "yes") c4ud c4q "mul_done:company_name" []
      (by decide) (by decide) (by decide) (by decide) (by decide) (by decide)
      (by decide)).1,
    (c4_other_override (build_survey "yes") c4ud c4q "mul_done:company_name" []
      (by decide) (by decide) (by decide) (by decide) (by decide) (by decide)
      (by decide)).2
      "Acme Corp" (by decide)⟩

/-- C5: for every reachable session and every conditional question of its
effective graph (one carrying a `conditional_on` predicate — in these graphs
always an affirmative test), the skip decision presents the question exactly
when the recorded predicate answer is affirmative in the session language;
and when the predicate answer is not affirmative, the conditional question's
id has no entry in the recorded answers map. -/
theorem c5_conditional_iff (ud : UserData) (hr : Reachable ud)
    (q : Question) (hq : q ∈ get_survey ud) (c : String)
    (hc : q.conditional_on = some c) (hcy : q.conditional_value_yes = true) :
    (should_skip_conditional q (ansMap ud) ud.lang
      = !(is_yes_answer (ansToStr ((getA (ansMap ud) c).getD (Ans.s "")))
          ud.lang))
    ∧ (is_yes_answer (ansToStr ((getA (ansMap ud) c).getD (Ans.s ""))) ud.lang
        = false →
      getA (ansMap ud) q.id = none) := by
  constructor
  · rw [should_skip_conditional, hc]
    simp only [hcy, if_true]
  · intro hno
    have hInv := reach_inv hr
    obtain ⟨⟨i, hilen⟩, hgi⟩ := List.mem_iff_get.mp hq
    have hfacts := surveyOk_get ud i hilen
    rw [hgi] at hfacts
    obtain ⟨_, _, _, _, fCond, fCondOnly, _⟩ := hfacts
    have hids := fCondOnly (by rw [hc]; exact fun hh => Option.noConfusion hh)
    obtain ⟨hcon, _, _⟩ := fCond hids
    have hcsub : c = "complaint_submitted" := Option.some.inj (hc.symm.trans hcon)
    subst hcsub
    by_contra hsome
    have hs : (getA (ansMap ud) q.id).isSome = true := by
      rcases hg : getA (ansMap ud) q.id with _ | v
      · exact absurd hg hsome
      · rfl
    have hant : (getA (ansMap ud) "complaint_reason").isSome = true ∨
        (getA (ansMap ud) "complaint_resolved").isSome = true := by
      rcases hids with hh | hh
      · left
        rwa [← hh]
      · right
        rwa [← hh]
    rcases hInv.1 hant with ⟨hyes, _⟩
    rw [hyes] at hno
    exact Bool.noConfusion hno

/-- Witness for C5 at a fresh reachable session (right after language
selection) and the conditional `complaint_reason` question of the default
user-branch graph: nothing is recorded yet, so the predicate is not
affirmative, the question is skipped, and its id has no recorded answer. -/
theorem c5_witness :
    (should_skip_conditional ((build_survey "yes").getD 32 Q_EVER_USED)
        (ansMap ({ lang := Lang.uz } : UserData))
        ({ lang := Lang.uz } : UserData).lang
      = !(is_yes_answer (ansToStr ((getA (ansMap ({ lang := Lang.uz } :
          UserData)) "complaint_submitted").getD (Ans.s "")))
        ({ lang := Lang.uz } : UserData).lang))
    ∧ getA (ansMap ({ lang := Lang.uz } : UserData))
        ((build_survey "yes").getD 32 Q_EVER_USED).id = none :=
  ⟨(c5_conditional_iff ({ lang := Lang.uz } : UserData) (Reachable.init Lang.uz)
      ((build_survey "yes").getD 32 Q_EVER_USED) (by decide)
      "complaint_submitted" (by decide) (by decide)).1,
    (c5_conditional_iff ({ lang := Lang.uz } : UserData) (Reachable.init Lang.uz)
      ((build_survey "yes").getD 32 Q_EVER_USED) (by decide)
      "complaint_submitted" (by decide) (by decide)).2 (by decide)⟩
